import Mathlib

/-!
consul-s3-snapshot: envelope encryption and the save / restore pipelines.

A shallow embedding of `main.go`.  The program is a thin sequence of calls into
external services (Consul, KMS, S3), the `gob` codec, `crypto/rand` and
`nacl/secretbox`.  Those collaborators are not part of the repository; they are
taken as the fields of a `World` record, each field carrying the Go signature
of the call it stands for.  Every function of `main.go` becomes a function
from a `World` to a `Prog`: the list of observable events of the run, in
order, together with the way the run ended (normal return, `os.Exit`, or a
runtime panic).  A `World` is fixed for a run: a call made twice with the same
arguments gives the same result both times.
-/

namespace ConsulS3Snapshot

/-! ## Bytes, arrays and the Go builtins used by the program -/

/-- One octet. -/
abbrev Byte := Fin 256

/-- Go `[]byte`.  A nil slice and an empty slice both have length zero and are
both the empty list. -/
abbrev Bytes := List Byte

/-- Go `[n]byte`: a byte sequence of length exactly `n`. -/
abbrev ByteArr (n : Nat) := { l : List Byte // l.length = n }

/-- Constant `keyLength` of `main.go`. -/
def keyLength : Nat := 32

/-- Constant `nonceLength` of `main.go`. -/
def nonceLength : Nat := 24

/-- The zero value `[n]byte{}`. -/
def zeroArr (n : Nat) : ByteArr n := ⟨List.replicate n 0, List.length_replicate n 0⟩

/-- Go builtin `copy(dst, src)` on byte slices: the first `min (len dst) (len src)`
bytes of `dst` are overwritten by those of `src`; the result is the new content
of `dst`. -/
def copy (dst src : Bytes) : Bytes := src.take dst.length ++ dst.drop src.length

/-- The statement `copy(a[:], src)` for an array `a`: the array after the copy. -/
def copyArr {n : Nat} (dst : ByteArr n) (src : Bytes) : ByteArr n :=
  ⟨copy dst.1 src, by
    have h := dst.2
    simp only [copy, List.length_append, List.length_take, List.length_drop]
    omega⟩

/-- The two statements `key := &[keyLength]byte{}; copy(key[:], dataKey)` that
`kmsEncrypt` (lines 181-182) and `kmsDecrypt` (lines 208-209) both execute. -/
def newKey (dataKey : Bytes) : ByteArr keyLength := copyArr (zeroArr keyLength) dataKey

/-- Go `strings.HasSuffix(s, suffix)`:
`len(s) >= len(suffix) && s[len(s)-len(suffix):] == suffix`. -/
def HasSuffix (s suffix : String) : Bool :=
  decide (suffix.data.length ≤ s.data.length) &&
    decide (s.data.drop (s.data.length - suffix.data.length) = suffix.data)

/-- The operands of `fmt.Println` / `fmt.Fprintln`, all strings here: separated
by single spaces, followed by a newline. -/
def Sprintln (operands : List String) : String := " ".intercalate operands ++ "\n"

/-! ## Time stamps -/

/-- The fields of a `time.Time` that the layout `20060102-150405` reads. -/
structure Time where
  year : Nat
  month : Nat
  day : Nat
  hour : Nat
  minute : Nat
  second : Nat
deriving DecidableEq, Repr

/-- Decimal digits of `x`, left-padded with zeros to at least `width` digits
(`appendInt` of package `time`). -/
def appendInt (x width : Nat) : String :=
  String.mk (List.replicate (width - (Nat.repr x).length) (Char.ofNat 48)) ++ Nat.repr x

/-- The call `now.Format("20060102-150405")`. -/
def Time.Format (t : Time) : String :=
  appendInt t.year 4 ++ appendInt t.month 2 ++ appendInt t.day 2 ++ "-" ++
    appendInt t.hour 2 ++ appendInt t.minute 2 ++ appendInt t.second 2

/-- The character of the last decimal digit of `d`. -/
def digit (d : Nat) : Char := Char.ofNat (48 + d % 10)

/-- The stamp `YYYYMMDD-HHMMSS` of a calendar time, written digit by digit: four
digits of the year, two of the month, two of the day, a hyphen, two digits of
the hour, two of the minute, two of the second. -/
def stampYYYYMMDD_HHMMSS (t : Time) : String :=
  String.mk
    [digit (t.year / 1000), digit (t.year / 100), digit (t.year / 10), digit t.year,
      digit (t.month / 10), digit t.month,
      digit (t.day / 10), digit t.day,
      Char.ofNat 45,
      digit (t.hour / 10), digit t.hour,
      digit (t.minute / 10), digit t.minute,
      digit (t.second / 10), digit t.second]

/-- A calendar time with a year of at most four digits: the values on which the
stamp `YYYYMMDD-HHMMSS` is defined. -/
def Time.IsCalendar (t : Time) : Prop :=
  t.year ≤ 9999 ∧ 1 ≤ t.month ∧ t.month ≤ 12 ∧ 1 ≤ t.day ∧ t.day ≤ 31 ∧
    t.hour ≤ 23 ∧ t.minute ≤ 59 ∧ t.second ≤ 59

instance (t : Time) : Decidable t.IsCalendar := by
  unfold Time.IsCalendar
  infer_instance

/-! ## The payload -/

/-- Type `payload` of `main.go`.  `Nonce` is a pointer to a 24-byte array and
may be nil (`none`). -/
structure payload where
  Key : Bytes
  Nonce : Option (ByteArr nonceLength)
  Message : Bytes
deriving DecidableEq

/-- The zero value of `payload` (`var p payload`). -/
def payload.zero : payload := { Key := [], Nonce := none, Message := [] }

/-! ## Runs of the program -/

/-- A step of a run: a line written to a standard stream, or a call into a
collaborator together with the arguments it was given. -/
inductive Event where
  | stdout (line : String)
  | stderr (line : String)
  | newSession
  | consulNewClient
  | consulSnapshotSave
  | consulSnapshotRestore (content : Bytes)
  | kmsGenerateDataKey (region keyId keySpec : String)
  | kmsDecrypt (region : String) (blob : Bytes)
  | randRead (n : Nat)
  | secretboxSeal (out message : Bytes) (nonce : Option (ByteArr nonceLength))
      (key : ByteArr keyLength)
  | secretboxOpen (out box : Bytes) (nonce : Option (ByteArr nonceLength))
      (key : ByteArr keyLength)
  | tempFile (name : String)
  | removeFile (name : String)
  | s3Download (bucket region path : String)
  | s3PutObject (bucket region key : String) (content : Bytes) (contentLength : Nat)
      (contentType : String)
deriving DecidableEq

/-- How a run of a function ends. -/
inductive Outcome (α : Type) where
  /-- The function returned `a` to its caller. -/
  | ret (a : α)
  /-- The process was ended by `os.Exit(code)`. -/
  | exited (code : Nat)
  /-- A runtime panic ended the process. -/
  | panicked (msg : String)
deriving DecidableEq

/-- A run: the events it produced, oldest first, and how it ended. -/
structure Prog (α : Type) where
  trace : List Event
  out : Outcome α
deriving DecidableEq

/-- Sequencing: the second part runs only when the first returned. -/
def Prog.bind {α β : Type} (m : Prog α) (f : α → Prog β) : Prog β :=
  match m.out with
  | .ret a => ⟨m.trace ++ (f a).trace, (f a).out⟩
  | .exited c => ⟨m.trace, .exited c⟩
  | .panicked s => ⟨m.trace, .panicked s⟩

instance : Monad Prog where
  pure a := ⟨[], .ret a⟩
  bind := Prog.bind

/-- Record one event. -/
def emit (e : Event) : Prog Unit := ⟨[e], .ret ()⟩

/-- The call `os.Exit(code)`. -/
def osExit {α : Type} (code : Nat) : Prog α := ⟨[], .exited code⟩

/-- A runtime panic. -/
def goPanic {α : Type} (msg : String) : Prog α := ⟨[], .panicked msg⟩

/-- The call `fmt.Println(operands...)`. -/
def Println (operands : List String) : Prog Unit := emit (.stdout (Sprintln operands))

/-- The call `fmt.Fprintln(os.Stderr, operands...)`. -/
def FprintlnStderr (operands : List String) : Prog Unit := emit (.stderr (Sprintln operands))

/-! ## The collaborators -/

/-- A `*kms.KMS` client: what `newKmsClient` configured it with. -/
structure KMS where
  region : String
deriving DecidableEq

/-- The outside of the program.  Every field is one external call, with the
arguments and results of its Go signature; an `Except String` result is the Go
pair `(value, err)` and an `Option String` result is a lone `err`. -/
structure World where
  /-- Result of `time.Now()`. -/
  now : Time
  /-- Error of `session.NewSession()`, which `session.Must` turns into a panic. -/
  NewSession : Option String
  /-- Error of `api.NewClient(api.DefaultConfig())`. -/
  NewClient : Option String
  /-- Result of `snapshot.Save(nil)`: the bytes of the stream and `qm.LastIndex`. -/
  SnapshotSave : Except String (Bytes × Nat)
  /-- Error of `snapshot.Restore(nil, reader)` for the given content. -/
  SnapshotRestore : Bytes → Option String
  /-- Result of `kmsClient.GenerateDataKey` for a client region, `KeyId` and
  `KeySpec`: the fields `Plaintext` and `CiphertextBlob` of the output. -/
  GenerateDataKey : String → String → String → Except String (Bytes × Bytes)
  /-- Result of `kmsClient.Decrypt` for a client region and `CiphertextBlob`: the
  field `Plaintext` of the output. -/
  Decrypt : String → Bytes → Except String Bytes
  /-- Result of `rand.Read` on a 24-byte buffer: the bytes drawn. -/
  randRead : Except String (ByteArr nonceLength)
  /-- Result of `secretbox.Seal(out, message, nonce, key)`; `none` is a panic. -/
  Seal : Bytes → Bytes → Option (ByteArr nonceLength) → ByteArr keyLength → Option Bytes
  /-- Result of `secretbox.Open(out, box, nonce, key)`; `none` is a panic. -/
  Open : Bytes → Bytes → Option (ByteArr nonceLength) → ByteArr keyLength →
    Option (Bytes × Bool)
  /-- Result of `gob.NewEncoder(buf).Encode(p)`: the content of `buf`. -/
  gobEncode : payload → Except String Bytes
  /-- Result of `gob.NewDecoder(bytes.NewReader(b)).Decode(&p)`: the value of `p`
  after the call, and the error returned. -/
  gobDecode : Bytes → payload → payload × Option String
  /-- Result of `ioutil.TempFile(".", "snap-restore")`: the name of the file. -/
  TempFile : Except String String
  /-- Result of `downloader.Download` for a client region, bucket and key: the
  bytes written to the file. -/
  Download : String → String → String → Except String Bytes
  /-- Error of `s3Client.PutObject` for a client region, bucket, key, body,
  content length and content type. -/
  PutObject : String → String → String → Bytes → Nat → String → Option String

/-! ## The functions of `main.go` -/

/-- The expression `session.Must(session.NewSession())`. -/
def mustNewSession (w : World) : Prog Unit := do
  emit .newSession
  match w.NewSession with
  | some err => goPanic err
  | none => pure ()

/-- Function `newKmsClient` (lines 143-146). -/
def newKmsClient (w : World) (kmsRegion : String) : Prog KMS := do
  mustNewSession w
  pure { region := kmsRegion }

/-- Function `kmsEncrypt` (lines 159-193).  The result is the Go pair
`([]byte, error)`. -/
def kmsEncrypt (w : World) (kmsClient : KMS) (kmsKeyArn : String) (plaintext : Bytes) :
    Prog (Bytes × Option String) := do
  let keySpec := "AES_128"
  emit (.kmsGenerateDataKey kmsClient.region kmsKeyArn keySpec)
  match w.GenerateDataKey kmsClient.region kmsKeyArn keySpec with
  | .error err => do
    FprintlnStderr ["Failed to get kms data key", err]
    osExit 1
  | .ok (dataKeyPlaintext, dataKeyCiphertextBlob) => do
    -- Initialize payload
    let p : payload :=
      { Key := dataKeyCiphertextBlob, Nonce := some (zeroArr nonceLength), Message := [] }
    -- Set nonce
    emit (.randRead nonceLength)
    match w.randRead with
    | .error err => pure ([], some err)
    | .ok nonce => do
      let p := { p with Nonce := some nonce }
      -- Create key
      let key := newKey dataKeyPlaintext
      -- Encrypt message
      emit (.secretboxSeal p.Message plaintext p.Nonce key)
      match w.Seal p.Message plaintext p.Nonce key with
      | none => goPanic "invalid memory address or nil pointer dereference"
      | some box => do
        let p := { p with Message := box }
        match w.gobEncode p with
        | .error err => pure ([], some err)
        | .ok buf => pure (buf, none)

/-- Function `kmsDecrypt` (lines 195-218).  The result is the Go pair
`([]byte, error)`. -/
def kmsDecrypt (w : World) (kmsClient : KMS) (ciphertext : Bytes) :
    Prog (Bytes × Option String) := do
  -- Decode ciphertext with gob; the error returned by Decode is not read
  let p := (w.gobDecode ciphertext payload.zero).1
  emit (.kmsDecrypt kmsClient.region p.Key)
  match w.Decrypt kmsClient.region p.Key with
  | .error err => do
    FprintlnStderr ["Failed to get data key", err]
    osExit 1
  | .ok dataKeyPlaintext => do
    let key := newKey dataKeyPlaintext
    -- Decrypt message
    emit (.secretboxOpen [] p.Message p.Nonce key)
    match w.Open [] p.Message p.Nonce key with
    | none => goPanic "invalid memory address or nil pointer dereference"
    | some (plaintext, ok) =>
      if !ok then
        pure ([], some "Failed to open secretbox")
      else
        pure (plaintext, none)

/-- Function `getConsulSnapshot` (lines 122-141). -/
def getConsulSnapshot (w : World) : Prog (Bytes × Nat) := do
  emit .consulNewClient
  match w.NewClient with
  | some err => do
    FprintlnStderr ["Failed to get consul client", err]
    osExit 1
  | none => do
    emit .consulSnapshotSave
    match w.SnapshotSave with
    | .error err => do
      FprintlnStderr ["Failed to get consul snapshot", err]
      osExit 1
    | .ok (snap, lastIndex) => pure (snap, lastIndex)

/-- Function `restoreConsulSnapshot` (lines 109-120). -/
def restoreConsulSnapshot (w : World) (snapshotContent : Bytes) : Prog Unit := do
  emit .consulNewClient
  match w.NewClient with
  | some err => do
    FprintlnStderr ["Failed to get consul client", err]
    osExit 1
  | none => do
    emit (.consulSnapshotRestore snapshotContent)
    match w.SnapshotRestore snapshotContent with
    | some err => do
      FprintlnStderr ["Failed to get consul client", err]
      osExit 1
    | none => pure ()

/-- Function `s3Download` (lines 220-243).  The result is the open temporary
file: its name and the bytes the download wrote to it. -/
def s3Download (w : World) (s3Bucket s3Region s3Path : String) : Prog (String × Bytes) := do
  mustNewSession w
  match w.TempFile with
  | .error err => do
    FprintlnStderr ["Failed to create destination file", err]
    osExit 1
  | .ok name => do
    emit (.tempFile name)
    emit (.s3Download s3Bucket s3Region s3Path)
    match w.Download s3Region s3Bucket s3Path with
    | .error err => do
      FprintlnStderr ["Failed to download from s3", err]
      emit (.removeFile name)
      osExit 1
    | .ok content => pure (name, content)

/-- Function `s3Upload` (lines 245-261). -/
def s3Upload (w : World) (s3Bucket s3Region key : String) (content : Bytes)
    (fileType : String) : Prog Unit := do
  mustNewSession w
  emit (.s3PutObject s3Bucket s3Region key content content.length fileType)
  match w.PutObject s3Region s3Bucket key content content.length fileType with
  | some err => do
    FprintlnStderr ["Failed to upload to s3", err]
    osExit 1
  | none => pure ()

/-- The two branches of the `if kmsKeyArn != ""` statement of `save` (lines
56-77): the values of `toUpload`, `fileType` and `key` after it. -/
def saveBranch (w : World) (kmsRegion kmsKeyArn : String) (toUpload : Bytes) (key : String) :
    Prog (Bytes × String × String) :=
  if kmsKeyArn ≠ "" then do
    if kmsRegion = "" then do
      FprintlnStderr ["--kms-key-region required when using --kms-key-arn"]
      osExit 1
    else do
      let kmsClient ← newKmsClient w kmsRegion
      let (toUpload, err) ← kmsEncrypt w kmsClient kmsKeyArn toUpload
      match err with
      | some err => do
        FprintlnStderr ["Failed to encrypt data", err]
        osExit 1
      | none => do
        let fileType := "application/octet-stream"
        let key := key ++ ".enc"
        Println ["KMS enabled, using", kmsKeyArn]
        pure (toUpload, fileType, key)
  else do
    let fileType := "application/gzip"
    let key := key ++ ".zip"
    Println ["KMS not enabled"]
    pure (toUpload, fileType, key)

/-- Function `save` (lines 49-81). -/
def save (w : World) (s3Bucket s3Region s3Prefix kmsRegion kmsKeyArn : String) : Prog Unit := do
  let (toUpload, lastIndex) ← getConsulSnapshot w
  let now := w.now
  let key := s3Prefix ++ Nat.repr lastIndex ++ "-" ++ now.Format
  let (toUpload, fileType, key) ← saveBranch w kmsRegion kmsKeyArn toUpload key
  s3Upload w s3Bucket s3Region key toUpload fileType
  Println ["Uploaded to " ++ s3Bucket ++ "/" ++ key]

/-- The `if strings.HasSuffix(s3Path, ".enc")` statement of `restore` (lines
92-104): the value of `content` after it. -/
def restoreBranch (w : World) (s3Path kmsRegion : String) (content : Bytes) : Prog Bytes :=
  if HasSuffix s3Path ".enc" then do
    if kmsRegion = "" then do
      FprintlnStderr ["Must specify --kms-region when restoring an encrypted backup"]
      osExit 1
    else do
      let kmsClient ← newKmsClient w kmsRegion
      let (content, err) ← kmsDecrypt w kmsClient content
      match err with
      | some err => do
        FprintlnStderr ["Failed to decrypt snapshot", err]
        osExit 1
      | none => pure content
  else
    pure content

/-- Function `restore` (lines 83-107). -/
def restore (w : World) (s3Bucket s3Region s3Path kmsRegion : String) : Prog Unit := do
  let (name, content) ← s3Download w s3Bucket s3Region s3Path
  emit (.removeFile name)
  let content ← restoreBranch w s3Path kmsRegion content
  restoreConsulSnapshot w content
  Println ["Restored from", s3Path]

/-! ## Contracts of the collaborators -/

/-- The key service is consistent: `Decrypt` of a wrapped key that
`GenerateDataKey` returned yields the plaintext data key returned with it. -/
def KeyServiceConsistent (w : World) : Prop :=
  ∀ region keyId keySpec dataKey wrapped,
    w.GenerateDataKey region keyId keySpec = .ok (dataKey, wrapped) →
      w.Decrypt region wrapped = .ok dataKey

/-- The codec restores what it wrote: decoding the bytes `Encode` produced for a
payload with a nonce, into a zero payload, gives that payload and no error. -/
def GobRoundTrip (w : World) : Prop :=
  ∀ (p : payload) (b : Bytes), p.Nonce ≠ none → w.gobEncode p = .ok b →
    w.gobDecode b payload.zero = (p, none)

/-- The cipher opens what it sealed: under the nonce and key of the seal, `Open`
returns the message and reports success. -/
def BoxRoundTrip (w : World) : Prop :=
  ∀ (m box : Bytes) (n : ByteArr nonceLength) (k : ByteArr keyLength),
    w.Seal [] m (some n) k = some box → w.Open [] box (some n) k = some (m, true)

/-- Two byte sequences that differ in exactly one position. -/
def OneByteChanged (a b : Bytes) : Prop :=
  ∃ (pre post : Bytes) (x y : Byte), x ≠ y ∧ a = pre ++ x :: post ∧ b = pre ++ y :: post

/-- The string `s` ends with the four characters `.enc`. -/
def EndsWithEnc (s : String) : Prop := ∃ stem : String, s = stem ++ ".enc"

/-! ## A small concrete world

Stand-ins for the collaborators, used to run the program on concrete inputs:
a key service that knows one data key, a cipher whose box carries the nonce,
the key and a one-byte checksum in front of the message, and a codec that
writes the length of the wrapped key, the wrapped key, the nonce and the
message. -/

/-- The data key of the stand-in key service (16 bytes, as for `AES_128`). -/
def demoDataKey : Bytes := [1, 2, 3, 4, 5, 6, 7, 8, 9, 10, 11, 12, 13, 14, 15, 16]

/-- The wrapped form of `demoDataKey`. -/
def demoWrappedKey : Bytes := [170, 187, 204]

/-- Stand-in for `GenerateDataKey`. -/
def demoGenerateDataKey (_region _keyId keySpec : String) : Except String (Bytes × Bytes) :=
  if keySpec = "AES_128" then .ok (demoDataKey, demoWrappedKey)
  else .error "ValidationException"

/-- Stand-in for `Decrypt`: only the blob that was handed out is accepted. -/
def demoDecrypt (_region : String) (blob : Bytes) : Except String Bytes :=
  if blob = demoWrappedKey then .ok demoDataKey else .error "InvalidCiphertextException"

/-- The nonce the stand-in random source draws. -/
def demoNonce : ByteArr nonceLength :=
  ⟨[24, 23, 22, 21, 20, 19, 18, 17, 16, 15, 14, 13, 12, 11, 10, 9, 8, 7, 6, 5, 4, 3, 2, 1], rfl⟩

/-- Length of what the stand-in cipher puts in front of the message. -/
def demoOverhead : Nat := nonceLength + keyLength + 1

/-- The box of the stand-in cipher: nonce, key, checksum of the message, message. -/
def demoBox (m : Bytes) (n : ByteArr nonceLength) (k : ByteArr keyLength) : Bytes :=
  n.1 ++ (k.1 ++ m.sum :: m)

/-- Stand-in for `secretbox.Seal`. -/
def demoSeal (out m : Bytes) (nonce : Option (ByteArr nonceLength)) (k : ByteArr keyLength) :
    Option Bytes :=
  match nonce with
  | none => none
  | some n => some (out ++ demoBox m n k)

/-- Stand-in for `secretbox.Open`: a box shorter than the overhead is rejected
before the nonce is read. -/
def demoOpen (out box : Bytes) (nonce : Option (ByteArr nonceLength)) (k : ByteArr keyLength) :
    Option (Bytes × Bool) :=
  if box.length < demoOverhead then some ([], false)
  else
    match nonce with
    | none => none
    | some n =>
      if box = demoBox (box.drop demoOverhead) n k then some (out ++ box.drop demoOverhead, true)
      else some ([], false)

/-- Stand-in for the encoder. -/
def demoEncode (p : payload) : Except String Bytes :=
  match p.Nonce with
  | none => .error "gob: nil pointer"
  | some n =>
    if h : p.Key.length < 256 then .ok (⟨p.Key.length, h⟩ :: (p.Key ++ (n.1 ++ p.Message)))
    else .error "gob: encoder: message too big"

/-- Stand-in for the decoder: on an error the destination is left as it was. -/
def demoDecode (b : Bytes) (p : payload) : payload × Option String :=
  match b with
  | [] => (p, some "EOF")
  | l :: rest =>
    if h : l.val + nonceLength ≤ rest.length then
      ({ Key := rest.take l.val,
         Nonce := some ⟨(rest.drop l.val).take nonceLength, by
           simp only [List.length_take, List.length_drop]; omega⟩,
         Message := rest.drop (l.val + nonceLength) }, none)
    else (p, some "unexpected EOF")

/-- The snapshot the stand-in store produces. -/
def demoSnapshot : Bytes := [31, 139, 8, 0, 42]

/-- The concrete world, over a bucket holding the given objects. -/
def demoWorld (objects : List (String × Bytes)) : World where
  now := { year := 2024, month := 1, day := 1, hour := 12, minute := 0, second := 0 }
  NewSession := none
  NewClient := none
  SnapshotSave := .ok (demoSnapshot, 42)
  SnapshotRestore := fun _ => none
  GenerateDataKey := demoGenerateDataKey
  Decrypt := demoDecrypt
  randRead := .ok demoNonce
  Seal := demoSeal
  Open := demoOpen
  gobEncode := demoEncode
  gobDecode := demoDecode
  TempFile := .ok "snap-restore012345678"
  Download := fun _ _ path =>
    match objects.lookup path with
    | some content => .ok content
    | none => .error "NoSuchKey"
  PutObject := fun _ _ _ _ _ _ => none

/-- The payload `kmsEncrypt` builds for `demoSnapshot` in the concrete world. -/
def demoPayload : payload :=
  { Key := demoWrappedKey, Nonce := some demoNonce,
    Message := demoBox demoSnapshot demoNonce (newKey demoDataKey) }

/-- The bytes of `demoPayload`. -/
def demoSealed : Bytes :=
  (⟨3, by decide⟩ : Byte) :: (demoWrappedKey ++ (demoNonce.1 ++ demoPayload.Message))

/-- The client the concrete runs use. -/
def demoClient : KMS := { region := "eu-west-1" }

/-- The key identifier the concrete runs use. -/
def demoKeyArn : String := "arn:aws:kms:eu-west-1:111122223333:key/demo"

/-- The payload `demoPayload` after a change of the first byte of its wrapped key. -/
def demoTamperedKey : payload := { demoPayload with Key := [171, 187, 204] }

/-- The bytes of `demoTamperedKey`. -/
def demoTamperedKeySealed : Bytes :=
  (⟨3, by decide⟩ : Byte) :: ([171, 187, 204] ++ (demoNonce.1 ++ demoPayload.Message))

/-- The payload `demoPayload` after a change of the last byte of its message. -/
def demoTamperedMessage : payload :=
  { demoPayload with
    Message := demoNonce.1 ++ ((newKey demoDataKey).1 ++ [220, 31, 139, 8, 0, 43]) }

/-- The bytes of `demoTamperedMessage`. -/
def demoTamperedMessageSealed : Bytes :=
  (⟨3, by decide⟩ : Byte) :: (demoWrappedKey ++ (demoNonce.1 ++ demoTamperedMessage.Message))

/-- The nonce `demoNonce` after a change of its first byte. -/
def demoNonce2 : ByteArr nonceLength :=
  ⟨[25, 23, 22, 21, 20, 19, 18, 17, 16, 15, 14, 13, 12, 11, 10, 9, 8, 7, 6, 5, 4, 3, 2, 1], rfl⟩

/-- The payload `demoPayload` after a change of the first byte of its nonce. -/
def demoTamperedNonce : payload := { demoPayload with Nonce := some demoNonce2 }

/-- The bytes of `demoTamperedNonce`. -/
def demoTamperedNonceSealed : Bytes :=
  (⟨3, by decide⟩ : Byte) :: (demoWrappedKey ++ (demoNonce2.1 ++ demoPayload.Message))

/-- A second clock value, with six different fields. -/
def demoClock2 : Time :=
  { year := 2023, month := 11, day := 4, hour := 9, minute := 5, second := 7 }

/-- The concrete world with an empty bucket, at the second clock value. -/
def demoWorld2 : World := { demoWorld [] with now := demoClock2 }

/-- A decoder that reports an error after it has stored the first and the third
field of the payload: the wrapped key `demoWrappedKey` and the rest of the input
as the message; the nonce is left nil. -/
def demoBrokenDecode (b : Bytes) (p : payload) : payload × Option String :=
  ({ p with Key := demoWrappedKey, Message := b }, some "gob: field numbers out of bounds")

/-- A structurally invalid input of 60 bytes. -/
def demoGarbage : Bytes := List.replicate 60 7

/-- The calls to the key service. -/
def Event.isKeyService : Event → Bool
  | .kmsGenerateDataKey _ _ _ => true
  | .kmsDecrypt _ _ => true
  | _ => false

/-- The calls to the cipher. -/
def Event.isCipher : Event → Bool
  | .secretboxSeal _ _ _ _ => true
  | .secretboxOpen _ _ _ _ => true
  | _ => false

/-- The calls to the store of snapshots. -/
def Event.isConsul : Event → Bool
  | .consulNewClient => true
  | .consulSnapshotSave => true
  | .consulSnapshotRestore _ => true
  | _ => false

/-- The uploads to the blob store. -/
def Event.isPutObject : Event → Bool
  | .s3PutObject _ _ _ _ _ _ => true
  | _ => false

/-- The uploads of a run, in order. -/
def uploads (trace : List Event) : List Event := trace.filter Event.isPutObject

/-- A bucket holding an encrypted and a plain snapshot. -/
def demoBucket : List (String × Bytes) :=
  [("backup-42-20240101-120000.enc", demoSealed), ("backup-42-20240101-120000.zip", demoSnapshot)]

end ConsulS3Snapshot

namespace ConsulS3Snapshot

/-! ## The runs of `kmsEncrypt` and `kmsDecrypt` -/

/-- What `kmsEncrypt` does, call by call. -/
theorem kmsEncrypt_eq (w : World) (c : KMS) (K : String) (P : Bytes) :
    kmsEncrypt w c K P =
      match w.GenerateDataKey c.region K "AES_128" with
      | .error err =>
        ⟨[.kmsGenerateDataKey c.region K "AES_128",
          .stderr (Sprintln ["Failed to get kms data key", err])], .exited 1⟩
      | .ok (pk, wk) =>
        match w.randRead with
        | .error err =>
          ⟨[.kmsGenerateDataKey c.region K "AES_128", .randRead nonceLength],
            .ret ([], some err)⟩
        | .ok nonce =>
          match w.Seal [] P (some nonce) (newKey pk) with
          | none =>
            ⟨[.kmsGenerateDataKey c.region K "AES_128", .randRead nonceLength,
              .secretboxSeal [] P (some nonce) (newKey pk)],
              .panicked "invalid memory address or nil pointer dereference"⟩
          | some box =>
            ⟨[.kmsGenerateDataKey c.region K "AES_128", .randRead nonceLength,
              .secretboxSeal [] P (some nonce) (newKey pk)],
              match w.gobEncode { Key := wk, Nonce := some nonce, Message := box } with
              | .error err => .ret ([], some err)
              | .ok buf => .ret (buf, none)⟩ := by
  cases hg : w.GenerateDataKey c.region K "AES_128" with
  | error err =>
    simp [kmsEncrypt, hg, bind, Prog.bind, emit, osExit, FprintlnStderr]
  | ok r =>
    obtain ⟨pk, wk⟩ := r
    cases hr : w.randRead with
    | error err => simp [kmsEncrypt, hg, hr, bind, Prog.bind, emit, pure]
    | ok nonce =>
      cases hs : w.Seal [] P (some nonce) (newKey pk) with
      | none => simp [kmsEncrypt, hg, hr, hs, bind, Prog.bind, emit, goPanic]
      | some box =>
        cases he : w.gobEncode { Key := wk, Nonce := some nonce, Message := box } with
        | error err => simp [kmsEncrypt, hg, hr, hs, he, bind, Prog.bind, emit, pure]
        | ok buf => simp [kmsEncrypt, hg, hr, hs, he, bind, Prog.bind, emit, pure]

/-- What `kmsDecrypt` does, call by call. -/
theorem kmsDecrypt_eq (w : World) (c : KMS) (b : Bytes) :
    kmsDecrypt w c b =
      match w.Decrypt c.region (w.gobDecode b payload.zero).1.Key with
      | .error err =>
        ⟨[.kmsDecrypt c.region (w.gobDecode b payload.zero).1.Key,
          .stderr (Sprintln ["Failed to get data key", err])], .exited 1⟩
      | .ok dk =>
        ⟨[.kmsDecrypt c.region (w.gobDecode b payload.zero).1.Key,
          .secretboxOpen [] (w.gobDecode b payload.zero).1.Message
            (w.gobDecode b payload.zero).1.Nonce (newKey dk)],
          match w.Open [] (w.gobDecode b payload.zero).1.Message
              (w.gobDecode b payload.zero).1.Nonce (newKey dk) with
          | none => .panicked "invalid memory address or nil pointer dereference"
          | some (_, false) => .ret ([], some "Failed to open secretbox")
          | some (pt, true) => .ret (pt, none)⟩ := by
  cases hd : w.Decrypt c.region (w.gobDecode b payload.zero).1.Key with
  | error err => simp [kmsDecrypt, hd, bind, Prog.bind, emit, osExit, FprintlnStderr]
  | ok dk =>
    cases ho : w.Open [] (w.gobDecode b payload.zero).1.Message
        (w.gobDecode b payload.zero).1.Nonce (newKey dk) with
    | none => simp [kmsDecrypt, hd, ho, bind, Prog.bind, emit, goPanic]
    | some r =>
      obtain ⟨pt, ok⟩ := r
      cases ok <;> simp [kmsDecrypt, hd, ho, bind, Prog.bind, emit, pure]

/-- A successful `kmsEncrypt` went through every call, and returns the encoding
of the payload assembled from their results. -/
theorem kmsEncrypt_ret_iff (w : World) (c : KMS) (K : String) (P buf : Bytes) :
    (kmsEncrypt w c K P).out = .ret (buf, none) ↔
      ∃ (pk wk box : Bytes) (nonce : ByteArr nonceLength),
        w.GenerateDataKey c.region K "AES_128" = .ok (pk, wk) ∧
        w.randRead = .ok nonce ∧
        w.Seal [] P (some nonce) (newKey pk) = some box ∧
        w.gobEncode { Key := wk, Nonce := some nonce, Message := box } = .ok buf := by
  rw [kmsEncrypt_eq]
  cases hg : w.GenerateDataKey c.region K "AES_128" with
  | error err => simp
  | ok r =>
    obtain ⟨pk, wk⟩ := r
    cases hr : w.randRead with
    | error err => simp
    | ok nonce =>
      cases hs : w.Seal [] P (some nonce) (newKey pk) with
      | none => simp [hs]
      | some box =>
        cases he : w.gobEncode { Key := wk, Nonce := some nonce, Message := box } with
        | error err => simp [hs, he]
        | ok b =>
          simp only [hs, he]
          constructor
          · intro h
            injection h with h
            injection h with h _
            exact ⟨pk, wk, box, nonce, rfl, rfl, hs, h ▸ he⟩
          · rintro ⟨pk1, wk1, box1, nonce1, h1, h2, h3, h4⟩
            injection h1 with h1
            injection h1 with h1a h1b
            injection h2 with h2
            subst h1a h1b h2
            rw [hs] at h3
            injection h3 with h3
            subst h3
            rw [he] at h4
            injection h4 with h4
            rw [h4]

/-- The run of `kmsDecrypt` on the encoding of a payload with a nonce, when the
key service unwraps its key. -/
theorem kmsDecrypt_encoded (w : World) (c : KMS) (p : payload) (buf dk : Bytes)
    (hgob : GobRoundTrip w) (hn : p.Nonce ≠ none) (henc : w.gobEncode p = .ok buf)
    (hd : w.Decrypt c.region p.Key = .ok dk) :
    (kmsDecrypt w c buf).out =
      match w.Open [] p.Message p.Nonce (newKey dk) with
      | none => .panicked "invalid memory address or nil pointer dereference"
      | some (_, false) => .ret ([], some "Failed to open secretbox")
      | some (pt, true) => .ret (pt, none) := by
  rw [kmsDecrypt_eq, hgob p buf hn henc]
  simp only [hd]

/-! ## The concrete world meets the contracts -/

theorem demo_keyService (objects : List (String × Bytes)) :
    KeyServiceConsistent (demoWorld objects) := by
  intro region keyId keySpec dataKey wrapped h
  simp only [demoWorld, demoGenerateDataKey] at h
  split at h
  · injection h with h
    injection h with h1 h2
    subst h1 h2
    rfl
  · cases h

theorem demoBox_drop (m : Bytes) (n : ByteArr nonceLength) (k : ByteArr keyLength) :
    (demoBox m n k).drop demoOverhead = m := by
  have hn : n.1.length = 24 := n.2
  have hk : k.1.length = 32 := k.2
  have h : demoBox m n k = (n.1 ++ k.1 ++ [m.sum]) ++ m := by simp [demoBox]
  rw [h]
  apply List.drop_left'
  simp [demoOverhead, nonceLength, keyLength, hn, hk]

theorem demoBox_length (m : Bytes) (n : ByteArr nonceLength) (k : ByteArr keyLength) :
    (demoBox m n k).length = demoOverhead + m.length := by
  have hn : n.1.length = 24 := n.2
  have hk : k.1.length = 32 := k.2
  simp [demoBox, demoOverhead, nonceLength, keyLength, hn, hk]
  omega

theorem demo_box (objects : List (String × Bytes)) : BoxRoundTrip (demoWorld objects) := by
  intro m box n k h
  simp only [demoWorld, demoSeal, List.nil_append, Option.some.injEq] at h
  subst h
  have hlen := demoBox_length m n k
  simp only [demoWorld, demoOpen, demoBox_drop, List.nil_append]
  rw [if_neg (by omega)]
  simp

theorem demo_gob (objects : List (String × Bytes)) : GobRoundTrip (demoWorld objects) := by
  intro p b hn h
  obtain ⟨key, nonce, msg⟩ := p
  cases nonce with
  | none => exact absurd rfl hn
  | some n =>
    have hn24 : n.1.length = 24 := n.2
    simp only [demoWorld, demoEncode] at h
    split at h
    · rename_i hlt
      injection h with h
      subst h
      have hle : key.length + nonceLength ≤ (key ++ (n.1 ++ msg)).length := by
        simp [nonceLength, hn24]
      simp only [demoWorld, demoDecode]
      rw [dif_pos hle]
      have h1 : List.take key.length (key ++ (n.1 ++ msg)) = key := List.take_left' rfl
      have h2 : List.drop key.length (key ++ (n.1 ++ msg)) = n.1 ++ msg := List.drop_left' rfl
      have h3 : List.take nonceLength (n.1 ++ msg) = n.1 := List.take_left' n.2
      have h4 : List.drop (key.length + nonceLength) (key ++ (n.1 ++ msg)) = msg := by
        rw [← List.drop_drop, h2]
        exact List.drop_left' n.2
      simp only [h1, h2, h3, h4]
    · cases h

/-! ## Envelope encryption -/

/-- Decrypting what was encrypted: the unwrapped key pads to the key of the seal,
the decoded payload is the encoded one, and the cipher opens its own box. -/
theorem kmsDecrypt_after_kmsEncrypt (w : World) (c : KMS) (K : String) (P buf : Bytes)
    (hkms : KeyServiceConsistent w) (hgob : GobRoundTrip w) (hbox : BoxRoundTrip w)
    (henc : (kmsEncrypt w c K P).out = .ret (buf, none)) :
    (kmsDecrypt w c buf).out = .ret (P, none) := by
  obtain ⟨pk, wk, box, nonce, hg, _, hs, he⟩ := (kmsEncrypt_ret_iff w c K P buf).mp henc
  have hd := hkms _ _ _ _ _ hg
  rw [kmsDecrypt_encoded w c _ buf pk hgob (by simp) he hd]
  simp only [hbox _ _ _ _ hs]

/-- C1 (round trip).  For every plaintext `P`, key identifier `K` and nonce drawn,
given a consistent key service (and a codec and a cipher that restore what they
wrote), `kmsDecrypt` applied to the bytes `kmsEncrypt K P` returned succeeds
and returns exactly `P`. -/
theorem kmsDecrypt_kmsEncrypt_round_trip (w : World) (c : KMS) (K : String) (P buf : Bytes)
    (hkms : KeyServiceConsistent w) (hgob : GobRoundTrip w) (hbox : BoxRoundTrip w)
    (henc : (kmsEncrypt w c K P).out = .ret (buf, none)) :
    (kmsDecrypt w c buf).out = .ret (P, none) :=
  kmsDecrypt_after_kmsEncrypt w c K P buf hkms hgob hbox henc

/-- Witness of C1 in the concrete world. -/
theorem kmsDecrypt_kmsEncrypt_round_trip_witness :
    (kmsEncrypt (demoWorld []) demoClient demoKeyArn demoSnapshot).out = .ret (demoSealed, none) ∧
      (kmsDecrypt (demoWorld []) demoClient demoSealed).out = .ret (demoSnapshot, none) :=
  ⟨by decide,
    kmsDecrypt_kmsEncrypt_round_trip (demoWorld []) demoClient demoKeyArn demoSnapshot demoSealed
      (demo_keyService []) (demo_gob []) (demo_box []) (by decide)⟩

/-- C8 (wrapped key only).  When `kmsEncrypt` succeeds, the bytes it returns are
the encoding of the payload whose three fields are: `Key`, the wrapped data key
that `GenerateDataKey` returned; `Nonce`, the 24 bytes drawn in the call;
`Message`, the seal of the plaintext under that nonce and the padded plaintext
key, that is the 32 bytes made of the plaintext data key followed by zeros (the
first 32 bytes of the data key, should it be longer).  The plaintext data key is
none of the three fields. -/
theorem kmsEncrypt_payload_fields (w : World) (c : KMS) (K : String) (P buf : Bytes)
    (henc : (kmsEncrypt w c K P).out = .ret (buf, none)) :
    ∃ (pk wk box : Bytes) (nonce : ByteArr nonceLength) (key : ByteArr keyLength),
      w.GenerateDataKey c.region K "AES_128" = .ok (pk, wk) ∧
      w.randRead = .ok nonce ∧
      key.1 = pk.take 32 ++ List.replicate (32 - pk.length) 0 ∧
      (pk.length ≤ 32 → key.1 = pk ++ List.replicate (32 - pk.length) 0) ∧
      w.Seal [] P (some nonce) key = some box ∧
      w.gobEncode { Key := wk, Nonce := some nonce, Message := box } = .ok buf := by
  obtain ⟨pk, wk, box, nonce, hg, hr, hs, he⟩ := (kmsEncrypt_ret_iff w c K P buf).mp henc
  have hkey : (newKey pk).1 = pk.take 32 ++ List.replicate (32 - pk.length) 0 := by
    show copy (List.replicate keyLength 0) pk = _
    simp only [copy, List.length_replicate, List.drop_replicate, keyLength]
  refine ⟨pk, wk, box, nonce, newKey pk, hg, hr, hkey, ?_, hs, he⟩
  intro hlen
  rw [hkey, List.take_of_length_le hlen]

/-- Witness of C8 in the concrete world: the key of the seal is the 16 bytes of
the data key followed by 16 zeros, and the payload carries the wrapped key
`demoWrappedKey`, the nonce drawn and the box sealed under that key. -/
theorem kmsEncrypt_payload_fields_witness :
    (kmsEncrypt (demoWorld []) demoClient demoKeyArn demoSnapshot).out = .ret (demoSealed, none) ∧
    ∃ (box : Bytes) (key : ByteArr keyLength),
      key.1 = [1, 2, 3, 4, 5, 6, 7, 8, 9, 10, 11, 12, 13, 14, 15, 16,
        0, 0, 0, 0, 0, 0, 0, 0, 0, 0, 0, 0, 0, 0, 0, 0] ∧
      (demoWorld []).Seal [] demoSnapshot (some demoNonce) key = some box ∧
      (demoWorld []).gobEncode
        { Key := demoWrappedKey, Nonce := some demoNonce, Message := box } = .ok demoSealed := by
  refine ⟨by decide, ?_⟩
  obtain ⟨pk, wk, box, nonce, key, hg, hr, hk, _, hs, he⟩ :=
    kmsEncrypt_payload_fields (demoWorld []) demoClient demoKeyArn demoSnapshot demoSealed
      (by decide)
  have hpw : (demoDataKey, demoWrappedKey) = (pk, wk) := Except.ok.inj hg
  injection hpw with hpk hwk
  subst hpk hwk
  have hn : demoNonce = nonce := Except.ok.inj hr
  subst hn
  exact ⟨box, key, hk, hs, he⟩

/-- The key built from a data key of at most 32 bytes: the data key followed by
zeros. -/
theorem newKey_val (k : Bytes) (h : k.length ≤ keyLength) :
    (newKey k).1 = k ++ List.replicate (keyLength - k.length) 0 := by
  show copy (List.replicate keyLength 0) k = _
  simp only [copy, List.length_replicate, List.drop_replicate]
  rw [List.take_of_length_le h]

/-- C9 (key reconstruction).  For a plaintext data key `pk` of length at most 32
returned by the key service, the key `kmsEncrypt` hands to `Seal` is the
32-byte sequence `pk` followed by zeros, and the key `kmsDecrypt` hands to
`Open` is built by the same function `newKey` from the unwrapped data key
`dk`; equal data keys give equal cipher keys. -/
theorem newKey_on_both_sides (w : World) (c : KMS) (K : String) (P b pk wk dk : Bytes)
    (nonce : ByteArr nonceLength) (hlen : pk.length ≤ keyLength)
    (hg : w.GenerateDataKey c.region K "AES_128" = .ok (pk, wk))
    (hr : w.randRead = .ok nonce)
    (hd : w.Decrypt c.region (w.gobDecode b payload.zero).1.Key = .ok dk) :
    (newKey pk).1 = pk ++ List.replicate (32 - pk.length) 0 ∧
    (newKey pk).1.length = 32 ∧
    Event.secretboxSeal [] P (some nonce) (newKey pk) ∈ (kmsEncrypt w c K P).trace ∧
    (∀ out m n k, Event.secretboxSeal out m n k ∈ (kmsEncrypt w c K P).trace → k = newKey pk) ∧
    Event.secretboxOpen [] (w.gobDecode b payload.zero).1.Message
      (w.gobDecode b payload.zero).1.Nonce (newKey dk) ∈ (kmsDecrypt w c b).trace ∧
    (∀ out bx n k, Event.secretboxOpen out bx n k ∈ (kmsDecrypt w c b).trace → k = newKey dk) ∧
    (dk = pk → newKey dk = newKey pk) := by
  refine ⟨newKey_val pk hlen, (newKey pk).2, ?_, ?_, ?_, ?_, fun h => by rw [h]⟩
  · rw [kmsEncrypt_eq]
    simp only [hg, hr]
    cases w.Seal [] P (some nonce) (newKey pk) <;> simp
  · intro out m n k
    rw [kmsEncrypt_eq]
    simp only [hg, hr]
    cases w.Seal [] P (some nonce) (newKey pk) <;> simp
  · rw [kmsDecrypt_eq]
    simp only [hd]
    simp
  · intro out bx n k
    rw [kmsDecrypt_eq]
    simp only [hd]
    simp

/-- Witness of C9 in the concrete world. -/
theorem newKey_on_both_sides_witness :
    (newKey demoDataKey).1 = demoDataKey ++ List.replicate (32 - demoDataKey.length) 0 ∧
    (newKey demoDataKey).1.length = 32 ∧
    Event.secretboxSeal [] demoSnapshot (some demoNonce) (newKey demoDataKey) ∈
      (kmsEncrypt (demoWorld []) demoClient demoKeyArn demoSnapshot).trace ∧
    (∀ out m n k, Event.secretboxSeal out m n k ∈
      (kmsEncrypt (demoWorld []) demoClient demoKeyArn demoSnapshot).trace →
        k = newKey demoDataKey) ∧
    Event.secretboxOpen [] ((demoWorld []).gobDecode demoSealed payload.zero).1.Message
      ((demoWorld []).gobDecode demoSealed payload.zero).1.Nonce (newKey demoDataKey) ∈
        (kmsDecrypt (demoWorld []) demoClient demoSealed).trace ∧
    (∀ out bx n k, Event.secretboxOpen out bx n k ∈
      (kmsDecrypt (demoWorld []) demoClient demoSealed).trace → k = newKey demoDataKey) ∧
    (demoDataKey = demoDataKey → newKey demoDataKey = newKey demoDataKey) :=
  newKey_on_both_sides (demoWorld []) demoClient demoKeyArn demoSnapshot demoSealed
    demoDataKey demoWrappedKey demoDataKey demoNonce (by decide) rfl rfl rfl

/-- C4 (all-or-nothing open).  For every input to `kmsDecrypt`: whenever the open
of the payload's message under the reconstructed key and the payload's nonce
reports failure, `kmsDecrypt` returns the error `Failed to open secretbox`
together with no plaintext bytes; an error is never accompanied by bytes; and
whenever `kmsDecrypt` returns bytes without an error, the open reported
success on exactly those bytes. -/
theorem kmsDecrypt_all_or_nothing (w : World) (c : KMS) (b : Bytes) :
    (∀ dk pt, w.Decrypt c.region (w.gobDecode b payload.zero).1.Key = .ok dk →
      w.Open [] (w.gobDecode b payload.zero).1.Message (w.gobDecode b payload.zero).1.Nonce
        (newKey dk) = some (pt, false) →
      (kmsDecrypt w c b).out = .ret ([], some "Failed to open secretbox")) ∧
    (∀ pt err, (kmsDecrypt w c b).out = .ret (pt, some err) → pt = []) ∧
    (∀ pt, (kmsDecrypt w c b).out = .ret (pt, none) →
      ∃ dk, w.Decrypt c.region (w.gobDecode b payload.zero).1.Key = .ok dk ∧
        w.Open [] (w.gobDecode b payload.zero).1.Message (w.gobDecode b payload.zero).1.Nonce
          (newKey dk) = some (pt, true)) := by
  refine ⟨?_, ?_, ?_⟩
  · intro dk pt hd ho
    rw [kmsDecrypt_eq]
    simp only [hd, ho]
  · intro pt err
    rw [kmsDecrypt_eq]
    cases hd : w.Decrypt c.region (w.gobDecode b payload.zero).1.Key with
    | error e => simp
    | ok dk =>
      simp only
      cases ho : w.Open [] (w.gobDecode b payload.zero).1.Message
          (w.gobDecode b payload.zero).1.Nonce (newKey dk) with
      | none => simp
      | some r =>
        obtain ⟨pt', ok⟩ := r
        cases ok <;> simp
        intro h _
        exact h
  · intro pt
    rw [kmsDecrypt_eq]
    cases hd : w.Decrypt c.region (w.gobDecode b payload.zero).1.Key with
    | error e => simp
    | ok dk =>
      simp only
      cases ho : w.Open [] (w.gobDecode b payload.zero).1.Message
          (w.gobDecode b payload.zero).1.Nonce (newKey dk) with
      | none => simp
      | some r =>
        obtain ⟨pt', ok⟩ := r
        cases ok <;> simp
        intro h
        rw [← h]
        exact ho

/-- Witness of C4 in the concrete world: a payload whose message was changed is
refused with no bytes, and the untouched payload is opened. -/
theorem kmsDecrypt_all_or_nothing_witness :
    (kmsDecrypt (demoWorld []) demoClient demoTamperedMessageSealed).out =
        .ret ([], some "Failed to open secretbox") ∧
    ∃ dk, (demoWorld []).Decrypt demoClient.region
          ((demoWorld []).gobDecode demoSealed payload.zero).1.Key = .ok dk ∧
        (demoWorld []).Open [] ((demoWorld []).gobDecode demoSealed payload.zero).1.Message
          ((demoWorld []).gobDecode demoSealed payload.zero).1.Nonce (newKey dk) =
            some (demoSnapshot, true) :=
  ⟨(kmsDecrypt_all_or_nothing (demoWorld []) demoClient demoTamperedMessageSealed).1
      demoDataKey [] rfl (by decide),
    (kmsDecrypt_all_or_nothing (demoWorld []) demoClient demoSealed).2.2 demoSnapshot
      (by decide)⟩

/-- C2, counterexample.  In the concrete world the payload that `kmsEncrypt`
produced is changed in the first byte of its wrapped key only; the key service
refuses the changed blob and `kmsDecrypt` ends the process with status 1 after
writing `Failed to get data key`: it does not return the error
`Failed to open secretbox`. -/
theorem kmsDecrypt_tampered_key_exits :
    (kmsEncrypt (demoWorld []) demoClient demoKeyArn demoSnapshot).out = .ret (demoSealed, none) ∧
    (demoWorld []).gobEncode demoPayload = .ok demoSealed ∧
    demoPayload.Key = [] ++ 170 :: [187, 204] ∧
    demoTamperedKey.Key = [] ++ 171 :: [187, 204] ∧
    demoTamperedKey.Nonce = demoPayload.Nonce ∧
    demoTamperedKey.Message = demoPayload.Message ∧
    (demoWorld []).gobEncode demoTamperedKey = .ok demoTamperedKeySealed ∧
    kmsDecrypt (demoWorld []) demoClient demoTamperedKeySealed =
      ⟨[.kmsDecrypt "eu-west-1" [171, 187, 204],
        .stderr "Failed to get data key InvalidCiphertextException\n"], .exited 1⟩ ∧
    (kmsDecrypt (demoWorld []) demoClient demoTamperedKeySealed).out ≠
      .ret ([], some "Failed to open secretbox") := by
  refine ⟨by decide, rfl, rfl, rfl, rfl, rfl, rfl, by decide, by decide⟩

/-- C2, amended.  Let `kmsEncrypt` have returned `buf` in a world with a
consistent key service and a codec and a cipher that restore what they wrote;
`buf` encodes the payload with the wrapped key `wk`, the nonce drawn and the
box sealed under `newKey pk`.  For the encoding `buf2` of a payload `q`:
* if `q` is that payload with one byte of `Message` changed, `kmsDecrypt buf2`
  opens the changed box under the same nonce and the key of the seal: whenever
  `Open` rejects it the result is the error `Failed to open secretbox` with no
  bytes, and any bytes returned without error are bytes `Open` accepted;
* likewise if `q` is that payload with one byte of the nonce changed;
* if `q` is that payload with one byte of `Key` changed, the key service judges
  first: when it refuses the changed blob the run is the call of the key
  service, the line `Failed to get data key` with its error, and `os.Exit(1)`;
  when it unwraps a data key that pads to the key of the seal, the original
  plaintext is returned; when `Open` rejects the box under the key it unwraps,
  the result is the error `Failed to open secretbox` with no bytes; and any
  bytes returned without error are bytes `Open` accepted under the unwrapped
  key. -/
theorem kmsDecrypt_tampered (w : World) (c : KMS) (K : String) (P buf : Bytes)
    (hkms : KeyServiceConsistent w) (hgob : GobRoundTrip w) (hbox : BoxRoundTrip w)
    (henc : (kmsEncrypt w c K P).out = .ret (buf, none)) :
    ∃ (pk wk box : Bytes) (nonce : ByteArr nonceLength),
      w.GenerateDataKey c.region K "AES_128" = .ok (pk, wk) ∧
      w.randRead = .ok nonce ∧
      w.Seal [] P (some nonce) (newKey pk) = some box ∧
      w.gobEncode { Key := wk, Nonce := some nonce, Message := box } = .ok buf ∧
      ∀ (q : payload) (buf2 : Bytes), w.gobEncode q = .ok buf2 →
        (q.Key = wk → q.Nonce = some nonce → OneByteChanged box q.Message →
          ((∃ x, w.Open [] q.Message (some nonce) (newKey pk) = some (x, false)) →
            (kmsDecrypt w c buf2).out = .ret ([], some "Failed to open secretbox")) ∧
          (∀ pt, (kmsDecrypt w c buf2).out = .ret (pt, none) →
            w.Open [] q.Message (some nonce) (newKey pk) = some (pt, true))) ∧
        (q.Key = wk → q.Message = box →
          ∀ n2 : ByteArr nonceLength, q.Nonce = some n2 → OneByteChanged nonce.1 n2.1 →
          ((∃ x, w.Open [] box (some n2) (newKey pk) = some (x, false)) →
            (kmsDecrypt w c buf2).out = .ret ([], some "Failed to open secretbox")) ∧
          (∀ pt, (kmsDecrypt w c buf2).out = .ret (pt, none) →
            w.Open [] box (some n2) (newKey pk) = some (pt, true))) ∧
        (q.Nonce = some nonce → q.Message = box → OneByteChanged wk q.Key →
          (∀ err, w.Decrypt c.region q.Key = .error err →
            kmsDecrypt w c buf2 =
              ⟨[.kmsDecrypt c.region q.Key,
                .stderr (Sprintln ["Failed to get data key", err])], .exited 1⟩) ∧
          (∀ dk, w.Decrypt c.region q.Key = .ok dk → newKey dk = newKey pk →
            (kmsDecrypt w c buf2).out = .ret (P, none)) ∧
          (∀ dk, w.Decrypt c.region q.Key = .ok dk →
            (∃ x, w.Open [] box (some nonce) (newKey dk) = some (x, false)) →
            (kmsDecrypt w c buf2).out = .ret ([], some "Failed to open secretbox")) ∧
          (∀ pt, (kmsDecrypt w c buf2).out = .ret (pt, none) →
            ∃ dk, w.Decrypt c.region q.Key = .ok dk ∧
              w.Open [] box (some nonce) (newKey dk) = some (pt, true))) := by
  obtain ⟨pk, wk, box, nonce, hg, hr, hs, he⟩ := (kmsEncrypt_ret_iff w c K P buf).mp henc
  have hd := hkms _ _ _ _ _ hg
  refine ⟨pk, wk, box, nonce, hg, hr, hs, he, ?_⟩
  intro q buf2 hq
  obtain ⟨qk, qn, qm⟩ := q
  refine ⟨?_, ?_, ?_⟩
  · intro h1 h2 _
    simp only at h1 h2
    subst h1 h2
    have hout := kmsDecrypt_encoded w c _ buf2 pk hgob (by simp) hq hd
    simp only at hout
    refine ⟨?_, ?_⟩
    · rintro ⟨x, hx⟩
      rw [hout, hx]
    · intro pt hpt
      rw [hout] at hpt
      cases ho : w.Open [] qm (some nonce) (newKey pk) with
      | none => rw [ho] at hpt; cases hpt
      | some r =>
        obtain ⟨x, ok⟩ := r
        rw [ho] at hpt
        cases ok
        · cases hpt
        · injection hpt with hpt
          injection hpt with hpt _
          rw [hpt]
  · intro h1 h2 n2 h3 _
    simp only at h1 h2 h3
    subst h1 h2 h3
    have hout := kmsDecrypt_encoded w c _ buf2 pk hgob (by simp) hq hd
    simp only at hout
    refine ⟨?_, ?_⟩
    · rintro ⟨x, hx⟩
      rw [hout, hx]
    · intro pt hpt
      rw [hout] at hpt
      cases ho : w.Open [] qm (some n2) (newKey pk) with
      | none => rw [ho] at hpt; cases hpt
      | some r =>
        obtain ⟨x, ok⟩ := r
        rw [ho] at hpt
        cases ok
        · cases hpt
        · injection hpt with hpt
          injection hpt with hpt _
          rw [hpt]
  · intro h1 h2 _
    simp only at h1 h2
    subst h1 h2
    have hdec := hgob _ buf2 (by simp) hq
    refine ⟨?_, ?_, ?_, ?_⟩
    · intro err hdq
      simp [kmsDecrypt, hdec, hdq, bind, Prog.bind, emit, osExit, FprintlnStderr]
    · intro dk hdq hk
      rw [kmsDecrypt_encoded w c _ buf2 dk hgob (by simp) hq hdq]
      simp only [hk, hbox _ _ _ _ hs]
    · rintro dk hdq ⟨x, hx⟩
      rw [kmsDecrypt_encoded w c _ buf2 dk hgob (by simp) hq hdq]
      simp only [hx]
    · intro pt hpt
      cases hdq : w.Decrypt c.region qk with
      | error err =>
        rw [kmsDecrypt_eq, hdec] at hpt
        simp only [hdq] at hpt
        cases hpt
      | ok dk =>
        refine ⟨dk, rfl, ?_⟩
        rw [kmsDecrypt_encoded w c _ buf2 dk hgob (by simp) hq hdq] at hpt
        simp only at hpt
        cases ho : w.Open [] qm (some nonce) (newKey dk) with
        | none => rw [ho] at hpt; cases hpt
        | some r =>
          obtain ⟨x, ok⟩ := r
          rw [ho] at hpt
          cases ok
          · cases hpt
          · injection hpt with hpt
            injection hpt with hpt _
            rw [hpt]

/-- Witness of C2 (amended) in the concrete world: the payload produced for
`demoSnapshot` with the last byte of its message changed, with the first byte of
its nonce changed, and with the first byte of its wrapped key changed. -/
theorem kmsDecrypt_tampered_witness :
    (kmsDecrypt (demoWorld []) demoClient demoTamperedMessageSealed).out =
        .ret ([], some "Failed to open secretbox") ∧
    (kmsDecrypt (demoWorld []) demoClient demoTamperedNonceSealed).out =
        .ret ([], some "Failed to open secretbox") ∧
    kmsDecrypt (demoWorld []) demoClient demoTamperedKeySealed =
      ⟨[.kmsDecrypt "eu-west-1" [171, 187, 204],
        .stderr "Failed to get data key InvalidCiphertextException\n"], .exited 1⟩ := by
  obtain ⟨pk, wk, box, nonce, hg, hr, hs, _, h⟩ :=
    kmsDecrypt_tampered (demoWorld []) demoClient demoKeyArn demoSnapshot demoSealed
      (demo_keyService []) (demo_gob []) (demo_box []) (by decide)
  have hpw : (demoDataKey, demoWrappedKey) = (pk, wk) := Except.ok.inj hg
  injection hpw with hpk hwk
  subst hpk hwk
  have hn : demoNonce = nonce := Except.ok.inj hr
  subst hn
  have hb : demoPayload.Message = box := Option.some.inj hs
  subst hb
  refine ⟨?_, ?_, ?_⟩
  · exact ((h demoTamperedMessage demoTamperedMessageSealed rfl).1 rfl rfl
      ⟨demoNonce.1 ++ ((newKey demoDataKey).1 ++ [220, 31, 139, 8, 0]), [], 42, 43,
        by decide, by decide, by decide⟩).1 ⟨[], by decide⟩
  · exact ((h demoTamperedNonce demoTamperedNonceSealed rfl).2.1 rfl rfl demoNonce2 rfl
      ⟨[], demoNonce.1.tail, 24, 25, by decide, by decide, by decide⟩).1 ⟨[], by decide⟩
  · exact ((h demoTamperedKey demoTamperedKeySealed rfl).2.2 rfl rfl
      ⟨[], [187, 204], 170, 171, by decide, by decide, by decide⟩).1
        "InvalidCiphertextException" rfl

/-- C3, the code at malformed inputs.  `kmsDecrypt` does not read the error of
`Decode`: a decoder reporting any other error, or none, gives the same run, and
the first step of every run is the call of the key service with whatever `Key`
the decoder left.  On the empty input, and on a truncated encoding, the decoder
of the concrete world reports `EOF` / `unexpected EOF`, and `kmsDecrypt` calls
the key service with an empty blob and ends the process with
`Failed to get data key`.  With a decoder that failed after storing the key and
the message, the run ends in a nil dereference of the nonce. -/
theorem kmsDecrypt_discards_decode_error :
    (∀ (w : World) (c : KMS) (b : Bytes) (errOf : Bytes → payload → Option String),
      kmsDecrypt { w with gobDecode := fun x p => ((w.gobDecode x p).1, errOf x p) } c b =
        kmsDecrypt w c b) ∧
    (∀ (w : World) (c : KMS) (b : Bytes),
      (kmsDecrypt w c b).trace.head? =
        some (.kmsDecrypt c.region (w.gobDecode b payload.zero).1.Key)) ∧
    (demoWorld []).gobDecode [] payload.zero = (payload.zero, some "EOF") ∧
    kmsDecrypt (demoWorld []) demoClient [] =
      ⟨[.kmsDecrypt "eu-west-1" [],
        .stderr "Failed to get data key InvalidCiphertextException\n"], .exited 1⟩ ∧
    (demoWorld []).gobDecode (demoSealed.take 20) payload.zero =
      (payload.zero, some "unexpected EOF") ∧
    kmsDecrypt (demoWorld []) demoClient (demoSealed.take 20) =
      ⟨[.kmsDecrypt "eu-west-1" [],
        .stderr "Failed to get data key InvalidCiphertextException\n"], .exited 1⟩ ∧
    kmsDecrypt { demoWorld [] with gobDecode := demoBrokenDecode } demoClient demoGarbage =
      ⟨[.kmsDecrypt "eu-west-1" demoWrappedKey,
        .secretboxOpen [] demoGarbage none (newKey demoDataKey)],
        .panicked "invalid memory address or nil pointer dereference"⟩ := by
  refine ⟨?_, ?_, rfl, by decide, by decide, by decide, by decide⟩
  · intro w c b errOf
    rw [kmsDecrypt_eq, kmsDecrypt_eq]
  · intro w c b
    rw [kmsDecrypt_eq]
    cases w.Decrypt c.region (w.gobDecode b payload.zero).1.Key <;> rfl

/-! ## Names -/

/-- Go `strings.HasSuffix(s, ".enc")` holds exactly of the strings that end with
the four characters `.enc`. -/
theorem HasSuffix_enc_iff (s : String) : HasSuffix s ".enc" = true ↔ EndsWithEnc s := by
  unfold HasSuffix EndsWithEnc
  rw [Bool.and_eq_true, decide_eq_true_eq, decide_eq_true_eq]
  constructor
  · rintro ⟨hlen, hdrop⟩
    refine ⟨String.mk (s.data.take (s.data.length - ".enc".data.length)), ?_⟩
    apply String.ext
    have h := (List.take_append_drop (s.data.length - ".enc".data.length) s.data).symm
    rw [hdrop] at h
    rw [String.data_append]
    exact h
  · rintro ⟨stem, rfl⟩
    rw [String.data_append]
    refine ⟨by simp, ?_⟩
    apply List.drop_left'
    simp

/-! ## The restore pipeline -/

/-- A successful `s3Download`. -/
theorem s3Download_ok (w : World) (s3Bucket s3Region s3Path name : String) (content : Bytes)
    (hsess : w.NewSession = none) (htemp : w.TempFile = .ok name)
    (hdl : w.Download s3Region s3Bucket s3Path = .ok content) :
    s3Download w s3Bucket s3Region s3Path =
      ⟨[.newSession, .tempFile name, .s3Download s3Bucket s3Region s3Path],
        .ret (name, content)⟩ := by
  simp [s3Download, mustNewSession, hsess, htemp, hdl, bind, Prog.bind, emit, pure]

/-- Every run of `s3Download` makes no call to the key service, the cipher or
the store of snapshots. -/
theorem s3Download_trace (w : World) (s3Bucket s3Region s3Path : String) :
    ∀ e ∈ (s3Download w s3Bucket s3Region s3Path).trace,
      e.isKeyService = false ∧ e.isCipher = false ∧ e.isConsul = false := by
  cases hsess : w.NewSession <;> cases htemp : w.TempFile <;>
    cases hdl : w.Download s3Region s3Bucket s3Path <;>
    simp [s3Download, mustNewSession, hsess, htemp, hdl, bind, Prog.bind, emit, pure, goPanic,
      osExit, FprintlnStderr, Event.isKeyService, Event.isCipher, Event.isConsul]

/-- The run of `restore` on a path ending in `.enc` with no key-service region. -/
theorem restore_enc_no_region_eq (w : World) (s3Bucket s3Region s3Path : String)
    (hsuf : HasSuffix s3Path ".enc" = true) :
    restore w s3Bucket s3Region s3Path "" =
      match (s3Download w s3Bucket s3Region s3Path).out with
      | .ret (name, _) =>
        ⟨(s3Download w s3Bucket s3Region s3Path).trace ++ [.removeFile name,
          .stderr "Must specify --kms-region when restoring an encrypted backup\n"], .exited 1⟩
      | .exited code => ⟨(s3Download w s3Bucket s3Region s3Path).trace, .exited code⟩
      | .panicked msg => ⟨(s3Download w s3Bucket s3Region s3Path).trace, .panicked msg⟩ := by
  cases h : (s3Download w s3Bucket s3Region s3Path).out with
  | ret r =>
    obtain ⟨name, content⟩ := r
    simp [restore, restoreBranch, hsuf, h, bind, Prog.bind, emit, osExit, FprintlnStderr,
      Sprintln]
    rfl
  | exited code => simp [restore, h, bind, Prog.bind]
  | panicked msg => simp [restore, h, bind, Prog.bind]

/-- The events of a sequence: those of the first part, and those of the second
part when the first returned. -/
theorem mem_bind_trace {α β : Type} (m : Prog α) (f : α → Prog β) (e : Event) :
    e ∈ (Prog.bind m f).trace ↔ e ∈ m.trace ∨ ∃ a, m.out = .ret a ∧ e ∈ (f a).trace := by
  unfold Prog.bind
  cases h : m.out with
  | ret a => simp
  | exited code => simp
  | panicked msg => simp

/-- The events of `restoreConsulSnapshot`: no call to the key service or the
cipher, and the store is handed the given content only. -/
theorem restoreConsulSnapshot_trace (w : World) (content : Bytes) :
    (∀ e ∈ (restoreConsulSnapshot w content).trace,
      e.isKeyService = false ∧ e.isCipher = false) ∧
    (∀ c, Event.consulSnapshotRestore c ∈ (restoreConsulSnapshot w content).trace →
      c = content) ∧
    (w.NewClient = none →
      Event.consulSnapshotRestore content ∈ (restoreConsulSnapshot w content).trace) := by
  cases hc : w.NewClient <;> cases hr : w.SnapshotRestore content <;>
    simp [restoreConsulSnapshot, hc, hr, bind, Prog.bind, emit, pure, osExit, FprintlnStderr,
      Event.isKeyService, Event.isCipher]

/-- The shape of `restore` after a successful download. -/
theorem restore_after_download (w : World) (s3Bucket s3Region s3Path kmsRegion name : String)
    (content : Bytes) (hsess : w.NewSession = none) (htemp : w.TempFile = .ok name)
    (hdl : w.Download s3Region s3Bucket s3Path = .ok content) :
    restore w s3Bucket s3Region s3Path kmsRegion =
      Prog.bind
        ⟨[.newSession, .tempFile name, .s3Download s3Bucket s3Region s3Path, .removeFile name],
          .ret ()⟩
        (fun _ => Prog.bind (restoreBranch w s3Path kmsRegion content)
          (fun c => Prog.bind (restoreConsulSnapshot w c)
            (fun _ => Println ["Restored from", s3Path]))) := by
  have h := s3Download_ok w s3Bucket s3Region s3Path name content hsess htemp hdl
  simp only [restore, bind, h, Prog.bind, emit, List.append_assoc, List.cons_append,
    List.nil_append]

/-- The branch of `restore` on a path without the suffix: the content is kept. -/
theorem restoreBranch_plain (w : World) (s3Path kmsRegion : String) (content : Bytes)
    (hsuf : HasSuffix s3Path ".enc" = false) :
    restoreBranch w s3Path kmsRegion content = ⟨[], .ret content⟩ := by
  simp [restoreBranch, hsuf, pure]

/-- The branch of `restore` on a path with the suffix and no key-service region. -/
theorem restoreBranch_no_region (w : World) (s3Path : String) (content : Bytes)
    (hsuf : HasSuffix s3Path ".enc" = true) :
    restoreBranch w s3Path "" content =
      ⟨[.stderr "Must specify --kms-region when restoring an encrypted backup\n"],
        .exited 1⟩ := by
  simp [restoreBranch, hsuf, bind, Prog.bind, emit, osExit, FprintlnStderr, Sprintln]
  rfl

/-- The branch of `restore` on a path with the suffix and a key-service region. -/
theorem restoreBranch_enc (w : World) (s3Path kmsRegion : String) (content : Bytes)
    (hsuf : HasSuffix s3Path ".enc" = true) (hreg : kmsRegion ≠ "")
    (hsess : w.NewSession = none) :
    restoreBranch w s3Path kmsRegion content =
      Prog.bind ⟨[.newSession], .ret ()⟩ (fun _ =>
        Prog.bind (kmsDecrypt w { region := kmsRegion } content) (fun r =>
          match r.2 with
          | some err => ⟨[.stderr (Sprintln ["Failed to decrypt snapshot", err])], .exited 1⟩
          | none => ⟨[], .ret r.1⟩)) := by
  simp only [restoreBranch, hsuf, hreg, if_true, if_false, newKmsClient, mustNewSession, hsess,
    bind, Prog.bind, emit, pure, List.append_nil, List.nil_append]
  cases h : (kmsDecrypt w { region := kmsRegion } content).out with
  | ret r =>
    obtain ⟨pt, err⟩ := r
    cases err <;> simp [FprintlnStderr, emit, osExit]
  | exited code => simp
  | panicked msg => simp

/-- On a path ending in `.enc` with no key-service region, `restore` makes no
call to the key service, the cipher or the store of snapshots. -/
theorem restore_enc_no_region_trace (w : World) (s3Bucket s3Region s3Path : String)
    (hs : HasSuffix s3Path ".enc" = true) :
    ∀ e ∈ (restore w s3Bucket s3Region s3Path "").trace,
      e.isKeyService = false ∧ e.isCipher = false ∧ e.isConsul = false := by
  have htr := s3Download_trace w s3Bucket s3Region s3Path
  rw [restore_enc_no_region_eq w s3Bucket s3Region s3Path hs]
  cases (s3Download w s3Bucket s3Region s3Path).out with
  | ret r =>
    intro e he
    simp only [List.mem_append, List.mem_cons, List.mem_singleton, List.not_mem_nil,
      or_false] at he
    rcases he with he | he | he
    · exact htr e he
    · subst he; exact ⟨rfl, rfl, rfl⟩
    · subst he; exact ⟨rfl, rfl, rfl⟩
  | exited code => exact htr
  | panicked msg => exact htr

/-- The events of `restore` on a path without the suffix, after a successful
download. -/
theorem restore_plain_trace (w : World) (s3Bucket s3Region s3Path kmsRegion name : String)
    (content : Bytes) (hsess : w.NewSession = none) (htemp : w.TempFile = .ok name)
    (hdl : w.Download s3Region s3Bucket s3Path = .ok content)
    (hs : HasSuffix s3Path ".enc" = false) (e : Event) :
    e ∈ (restore w s3Bucket s3Region s3Path kmsRegion).trace ↔
      e ∈ [Event.newSession, .tempFile name, .s3Download s3Bucket s3Region s3Path,
        .removeFile name] ∨
      e ∈ (restoreConsulSnapshot w content).trace ∨
      ((∃ x, (restoreConsulSnapshot w content).out = .ret x) ∧
        e = .stdout (Sprintln ["Restored from", s3Path])) := by
  rw [restore_after_download w s3Bucket s3Region s3Path kmsRegion name content hsess htemp hdl,
    restoreBranch_plain w s3Path kmsRegion content hs]
  simp [mem_bind_trace, Println, emit]

/-- C6, counterexample.  In the concrete world, `restore` on a path ending in
`.enc` with an empty key-service region downloads the object from the blob
store before it fails with the configuration error. -/
theorem restore_downloads_before_gate :
    restore (demoWorld demoBucket) "bucket" "eu-west-1" "backup-42-20240101-120000.enc" "" =
      ⟨[.newSession, .tempFile "snap-restore012345678",
        .s3Download "bucket" "eu-west-1" "backup-42-20240101-120000.enc",
        .removeFile "snap-restore012345678",
        .stderr "Must specify --kms-region when restoring an encrypted backup\n"],
        .exited 1⟩ := by
  decide

/-- C6, amended.  For every bucket, region and path ending in `.enc`, `restore`
with an empty key-service region never returns normally and makes no call to
the key service, the cipher or the store of snapshots; the blob-store download
is made first, and when it succeeds the run ends with the configuration error:
the message on the error stream and exit status 1. -/
theorem restore_enc_without_region (w : World) (s3Bucket s3Region s3Path : String)
    (hsuf : EndsWithEnc s3Path) :
    (restore w s3Bucket s3Region s3Path "").out ≠ .ret () ∧
    (∀ e ∈ (restore w s3Bucket s3Region s3Path "").trace,
      e.isKeyService = false ∧ e.isCipher = false ∧ e.isConsul = false) ∧
    (∀ name content, w.NewSession = none → w.TempFile = .ok name →
      w.Download s3Region s3Bucket s3Path = .ok content →
      restore w s3Bucket s3Region s3Path "" =
        ⟨[.newSession, .tempFile name, .s3Download s3Bucket s3Region s3Path, .removeFile name,
          .stderr "Must specify --kms-region when restoring an encrypted backup\n"],
          .exited 1⟩) := by
  have hs := (HasSuffix_enc_iff s3Path).mpr hsuf
  have heq := restore_enc_no_region_eq w s3Bucket s3Region s3Path hs
  refine ⟨?_, restore_enc_no_region_trace w s3Bucket s3Region s3Path hs, ?_⟩
  · rw [heq]
    cases (s3Download w s3Bucket s3Region s3Path).out <;> simp
  · intro name content hsess htemp hdl
    rw [heq, s3Download_ok w s3Bucket s3Region s3Path name content hsess htemp hdl]
    rfl

/-- Witness of C6 (amended) in the concrete world. -/
theorem restore_enc_without_region_witness :
    EndsWithEnc "backup-42-20240101-120000.enc" ∧
    (restore (demoWorld demoBucket) "bucket" "eu-west-1" "backup-42-20240101-120000.enc" "").out ≠
      .ret () ∧
    (∀ e ∈ (restore (demoWorld demoBucket) "bucket" "eu-west-1"
        "backup-42-20240101-120000.enc" "").trace,
      e.isKeyService = false ∧ e.isCipher = false ∧ e.isConsul = false) ∧
    (∀ name content, (demoWorld demoBucket).NewSession = none →
      (demoWorld demoBucket).TempFile = .ok name →
      (demoWorld demoBucket).Download "eu-west-1" "bucket" "backup-42-20240101-120000.enc" =
        .ok content →
      restore (demoWorld demoBucket) "bucket" "eu-west-1" "backup-42-20240101-120000.enc" "" =
        ⟨[.newSession, .tempFile name,
          .s3Download "bucket" "eu-west-1" "backup-42-20240101-120000.enc", .removeFile name,
          .stderr "Must specify --kms-region when restoring an encrypted backup\n"],
          .exited 1⟩) :=
  ⟨⟨"backup-42-20240101-120000", rfl⟩,
    restore_enc_without_region (demoWorld demoBucket) "bucket" "eu-west-1"
      "backup-42-20240101-120000.enc" ⟨"backup-42-20240101-120000", rfl⟩⟩

/-- Every run of `kmsDecrypt` starts with the call of the key service. -/
theorem kmsDecrypt_trace_head (w : World) (c : KMS) (b : Bytes) :
    Event.kmsDecrypt c.region (w.gobDecode b payload.zero).1.Key ∈ (kmsDecrypt w c b).trace := by
  rw [kmsDecrypt_eq]
  cases w.Decrypt c.region (w.gobDecode b payload.zero).1.Key <;> simp

/-- C7, counterexample.  The path `snapshot.enc` ends with `.enc`, yet with an
empty key-service region `restore` ends at the configuration gate: no call to
the key service is made and `kmsDecrypt` is not run on the content. -/
theorem restore_enc_path_without_decrypt :
    EndsWithEnc "snapshot.enc" ∧
    restore (demoWorld [("snapshot.enc", demoSealed)]) "bucket" "eu-west-1" "snapshot.enc" "" =
      ⟨[.newSession, .tempFile "snap-restore012345678",
        .s3Download "bucket" "eu-west-1" "snapshot.enc", .removeFile "snap-restore012345678",
        .stderr "Must specify --kms-region when restoring an encrypted backup\n"],
        .exited 1⟩ ∧
    ∀ e ∈ (restore (demoWorld [("snapshot.enc", demoSealed)]) "bucket" "eu-west-1"
        "snapshot.enc" "").trace, e.isKeyService = false ∧ e.isCipher = false := by
  refine ⟨⟨"snapshot", rfl⟩, by decide, by decide⟩

/-- C7, amended.  After a successful download of `content`: `restore` calls the
key service if and only if the path ends with `.enc` and the key-service region
is not empty; in that case it runs `kmsDecrypt` on `content` right after the
download.  When the path does not end with `.enc`, no call to the key service
or the cipher is made and the store is handed exactly `content`, whatever the
content and the key-service region. -/
theorem restore_decrypts_by_suffix (w : World) (s3Bucket s3Region s3Path kmsRegion name : String)
    (content : Bytes) (hsess : w.NewSession = none) (htemp : w.TempFile = .ok name)
    (hdl : w.Download s3Region s3Bucket s3Path = .ok content) :
    ((∃ e ∈ (restore w s3Bucket s3Region s3Path kmsRegion).trace, e.isKeyService = true) ↔
      (EndsWithEnc s3Path ∧ kmsRegion ≠ "")) ∧
    (EndsWithEnc s3Path → kmsRegion ≠ "" →
      ∃ rest, (restore w s3Bucket s3Region s3Path kmsRegion).trace =
        [.newSession, .tempFile name, .s3Download s3Bucket s3Region s3Path, .removeFile name,
          .newSession] ++ (kmsDecrypt w { region := kmsRegion } content).trace ++ rest) ∧
    (¬ EndsWithEnc s3Path →
      (∀ e ∈ (restore w s3Bucket s3Region s3Path kmsRegion).trace,
        e.isKeyService = false ∧ e.isCipher = false) ∧
      (∀ c, Event.consulSnapshotRestore c ∈ (restore w s3Bucket s3Region s3Path kmsRegion).trace →
        c = content) ∧
      (w.NewClient = none →
        Event.consulSnapshotRestore content ∈
          (restore w s3Bucket s3Region s3Path kmsRegion).trace)) := by
  have hrest := restore_after_download w s3Bucket s3Region s3Path kmsRegion name content
    hsess htemp hdl
  have hcons := restoreConsulSnapshot_trace w content
  -- the case of a path without the suffix
  have hplain : ¬ EndsWithEnc s3Path →
      (∀ e ∈ (restore w s3Bucket s3Region s3Path kmsRegion).trace,
        e.isKeyService = false ∧ e.isCipher = false) ∧
      (∀ c, Event.consulSnapshotRestore c ∈ (restore w s3Bucket s3Region s3Path kmsRegion).trace →
        c = content) ∧
      (w.NewClient = none →
        Event.consulSnapshotRestore content ∈
          (restore w s3Bucket s3Region s3Path kmsRegion).trace) := by
    intro hno
    have hs : HasSuffix s3Path ".enc" = false := by
      cases h : HasSuffix s3Path ".enc"
      · rfl
      · exact absurd ((HasSuffix_enc_iff s3Path).mp h) hno
    have hmem := restore_plain_trace w s3Bucket s3Region s3Path kmsRegion name content
      hsess htemp hdl hs
    refine ⟨?_, ?_, ?_⟩
    · intro e he
      rcases (hmem e).mp he with he | he | ⟨_, he⟩
      · simp only [List.mem_cons, List.mem_singleton, List.not_mem_nil, or_false] at he
        rcases he with he | he | he | he <;> subst he <;> exact ⟨rfl, rfl⟩
      · exact hcons.1 e he
      · subst he; exact ⟨rfl, rfl⟩
    · intro c he
      rcases (hmem _).mp he with he | he | ⟨_, he⟩
      · simp at he
      · exact hcons.2.1 c he
      · cases he
    · intro hc
      exact (hmem _).mpr (Or.inr (Or.inl (hcons.2.2 hc)))
  -- the case of a path with the suffix and a region
  have henc : EndsWithEnc s3Path → kmsRegion ≠ "" →
      ∃ rest, (restore w s3Bucket s3Region s3Path kmsRegion).trace =
        [.newSession, .tempFile name, .s3Download s3Bucket s3Region s3Path, .removeFile name,
          .newSession] ++ (kmsDecrypt w { region := kmsRegion } content).trace ++ rest := by
    intro hsuf hreg
    have hs := (HasSuffix_enc_iff s3Path).mpr hsuf
    rw [hrest, restoreBranch_enc w s3Path kmsRegion content hs hreg hsess]
    simp only [Prog.bind]
    cases h : (kmsDecrypt w { region := kmsRegion } content).out with
    | ret r =>
      obtain ⟨pt, err⟩ := r
      cases err with
      | none =>
        simp only [List.append_nil, List.cons_append, List.nil_append, List.append_assoc]
        cases (restoreConsulSnapshot w pt).out <;> simp
      | some err => simp
    | exited code => simp
    | panicked msg => simp
  refine ⟨⟨?_, ?_⟩, henc, hplain⟩
  · rintro ⟨e, he, hk⟩
    by_cases hsuf : EndsWithEnc s3Path
    · refine ⟨hsuf, ?_⟩
      rintro rfl
      have := restore_enc_no_region_trace w s3Bucket s3Region s3Path
        ((HasSuffix_enc_iff s3Path).mpr hsuf) e he
      rw [this.1] at hk
      cases hk
    · have := (hplain hsuf).1 e he
      rw [this.1] at hk
      cases hk
  · rintro ⟨hsuf, hreg⟩
    obtain ⟨rest, hrest2⟩ := henc hsuf hreg
    refine ⟨_, ?_, (rfl : (Event.kmsDecrypt kmsRegion
      (w.gobDecode content payload.zero).1.Key).isKeyService = true)⟩
    rw [hrest2]
    have := kmsDecrypt_trace_head w { region := kmsRegion } content
    simp only [List.mem_append]
    exact Or.inl (Or.inr this)

/-- Witness of C7 (amended) in the concrete world, on an encrypted object. -/
theorem restore_decrypts_by_suffix_witness :
    ((∃ e ∈ (restore (demoWorld demoBucket) "bucket" "eu-west-1"
        "backup-42-20240101-120000.enc" "eu-west-1").trace, e.isKeyService = true) ↔
      (EndsWithEnc "backup-42-20240101-120000.enc" ∧ "eu-west-1" ≠ "")) ∧
    (EndsWithEnc "backup-42-20240101-120000.enc" → "eu-west-1" ≠ "" →
      ∃ rest, (restore (demoWorld demoBucket) "bucket" "eu-west-1"
          "backup-42-20240101-120000.enc" "eu-west-1").trace =
        [.newSession, .tempFile "snap-restore012345678",
          .s3Download "bucket" "eu-west-1" "backup-42-20240101-120000.enc",
          .removeFile "snap-restore012345678", .newSession] ++
          (kmsDecrypt (demoWorld demoBucket) { region := "eu-west-1" } demoSealed).trace ++
          rest) ∧
    (¬ EndsWithEnc "backup-42-20240101-120000.enc" →
      (∀ e ∈ (restore (demoWorld demoBucket) "bucket" "eu-west-1"
          "backup-42-20240101-120000.enc" "eu-west-1").trace,
        e.isKeyService = false ∧ e.isCipher = false) ∧
      (∀ c, Event.consulSnapshotRestore c ∈ (restore (demoWorld demoBucket) "bucket"
          "eu-west-1" "backup-42-20240101-120000.enc" "eu-west-1").trace → c = demoSealed) ∧
      ((demoWorld demoBucket).NewClient = none →
        Event.consulSnapshotRestore demoSealed ∈ (restore (demoWorld demoBucket) "bucket"
          "eu-west-1" "backup-42-20240101-120000.enc" "eu-west-1").trace)) :=
  restore_decrypts_by_suffix (demoWorld demoBucket) "bucket" "eu-west-1"
    "backup-42-20240101-120000.enc" "eu-west-1" "snap-restore012345678" demoSealed rfl rfl rfl

/-! ## The save pipeline -/

/-- A successful `getConsulSnapshot`. -/
theorem getConsulSnapshot_ok (w : World) (snap : Bytes) (idx : Nat) (hcli : w.NewClient = none)
    (hsnap : w.SnapshotSave = .ok (snap, idx)) :
    getConsulSnapshot w = ⟨[.consulNewClient, .consulSnapshotSave], .ret (snap, idx)⟩ := by
  simp [getConsulSnapshot, hcli, hsnap, bind, Prog.bind, emit, pure]

/-- The branch of `save` without a key identifier. -/
theorem saveBranch_plain (w : World) (kmsRegion key : String) (toUpload : Bytes) :
    saveBranch w kmsRegion "" toUpload key =
      ⟨[.stdout "KMS not enabled\n"], .ret (toUpload, "application/gzip", key ++ ".zip")⟩ := by
  simp [saveBranch, bind, Prog.bind, Println, emit, pure, Sprintln]
  rfl

/-- The branch of `save` with a key identifier and a key-service region. -/
theorem saveBranch_enc (w : World) (kmsRegion kmsKeyArn key : String) (toUpload : Bytes)
    (harn : kmsKeyArn ≠ "") (hreg : kmsRegion ≠ "") (hsess : w.NewSession = none) :
    saveBranch w kmsRegion kmsKeyArn toUpload key =
      Prog.bind ⟨[.newSession], .ret ()⟩ (fun _ =>
        Prog.bind (kmsEncrypt w { region := kmsRegion } kmsKeyArn toUpload) (fun r =>
          match r.2 with
          | some err => ⟨[.stderr (Sprintln ["Failed to encrypt data", err])], .exited 1⟩
          | none =>
            ⟨[.stdout (Sprintln ["KMS enabled, using", kmsKeyArn])],
              .ret (r.1, "application/octet-stream", key ++ ".enc")⟩)) := by
  simp only [saveBranch, harn, hreg, if_true, if_false, newKmsClient, mustNewSession, hsess,
    bind, Prog.bind, emit, pure, List.append_nil, List.nil_append, ne_eq, not_false_eq_true]
  cases h : (kmsEncrypt w { region := kmsRegion } kmsKeyArn toUpload).out with
  | ret r =>
    obtain ⟨pt, err⟩ := r
    cases err <;> simp [FprintlnStderr, Println, emit, osExit]
  | exited code => simp
  | panicked msg => simp

/-- The run of `s3Upload` once the session exists. -/
theorem s3Upload_eq (w : World) (s3Bucket s3Region key fileType : String) (content : Bytes)
    (hsess : w.NewSession = none) :
    s3Upload w s3Bucket s3Region key content fileType =
      match w.PutObject s3Region s3Bucket key content content.length fileType with
      | some err =>
        ⟨[.newSession, .s3PutObject s3Bucket s3Region key content content.length fileType,
          .stderr (Sprintln ["Failed to upload to s3", err])], .exited 1⟩
      | none =>
        ⟨[.newSession, .s3PutObject s3Bucket s3Region key content content.length fileType],
          .ret ()⟩ := by
  cases h : w.PutObject s3Region s3Bucket key content content.length fileType <;>
    simp [s3Upload, mustNewSession, hsess, h, bind, Prog.bind, emit, pure, osExit,
      FprintlnStderr]

/-- The shape of `save` after a successful snapshot. -/
theorem save_after_snapshot (w : World) (s3Bucket s3Region s3Prefix kmsRegion kmsKeyArn : String)
    (snap : Bytes) (idx : Nat) (hcli : w.NewClient = none)
    (hsnap : w.SnapshotSave = .ok (snap, idx)) :
    save w s3Bucket s3Region s3Prefix kmsRegion kmsKeyArn =
      Prog.bind ⟨[.consulNewClient, .consulSnapshotSave], .ret ()⟩ (fun _ =>
        Prog.bind
          (saveBranch w kmsRegion kmsKeyArn snap
            (s3Prefix ++ Nat.repr idx ++ "-" ++ w.now.Format))
          (fun t => Prog.bind (s3Upload w s3Bucket s3Region t.2.2 t.1 t.2.1)
            (fun _ => Println ["Uploaded to " ++ s3Bucket ++ "/" ++ t.2.2]))) := by
  have h := getConsulSnapshot_ok w snap idx hcli hsnap
  simp only [save, bind, h, Prog.bind, List.append_assoc, List.cons_append, List.nil_append]

/-- No upload happens inside `kmsEncrypt`. -/
theorem kmsEncrypt_uploads (w : World) (c : KMS) (K : String) (P : Bytes) :
    uploads (kmsEncrypt w c K P).trace = [] := by
  rw [kmsEncrypt_eq]
  cases w.GenerateDataKey c.region K "AES_128" with
  | error err => rfl
  | ok r =>
    obtain ⟨pk, wk⟩ := r
    cases w.randRead with
    | error err => rfl
    | ok nonce =>
      cases hs : w.Seal [] P (some nonce) (newKey pk) <;>
        simp [hs, uploads, Event.isPutObject]

/-- One step of the conversion to decimal digits, on a number of two digits or
more. -/
theorem toDigitsCore_step (f x : Nat) (ds : List Char) (hx : 10 ≤ x) :
    Nat.toDigitsCore 10 (f + 1) x ds =
      Nat.toDigitsCore 10 f (x / 10) (Nat.digitChar (x % 10) :: ds) := by
  rw [Nat.toDigitsCore]
  have : x / 10 ≠ 0 := by omega
  simp [this]

/-- The last step of the conversion to decimal digits. -/
theorem toDigitsCore_last (f x : Nat) (ds : List Char) (hx : x < 10) :
    Nat.toDigitsCore 10 (f + 1) x ds = Nat.digitChar x :: ds := by
  rw [Nat.toDigitsCore]
  simp [Nat.div_eq_of_lt hx, Nat.mod_eq_of_lt hx]

theorem digitChar_eq_digit : ∀ d, d < 10 → Nat.digitChar d = digit d := by decide

/-- A number below 10000 padded to four places is its four decimal digits. -/
theorem appendInt_four (x : Nat) (h : x < 10000) :
    appendInt x 4 = String.mk [digit (x / 1000), digit (x / 100), digit (x / 10), digit x] := by
  have hd : ∀ d, digit d = Nat.digitChar (d % 10) := fun d => by
    rw [digitChar_eq_digit _ (Nat.mod_lt _ (by decide))]; simp [digit]
  have h0 : Char.ofNat 48 = Nat.digitChar 0 := by decide
  apply String.ext
  simp only [appendInt, Nat.repr, String.data_append, List.asString, Nat.toDigits, hd, h0]
  by_cases h1 : x < 10
  · rw [toDigitsCore_last _ _ _ h1]
    have e1 : x / 1000 % 10 = 0 := by omega
    have e2 : x / 100 % 10 = 0 := by omega
    have e3 : x / 10 % 10 = 0 := by omega
    have e4 : x % 10 = x := by omega
    simp [e1, e2, e3, e4]
  · by_cases h2 : x < 100
    · obtain ⟨f, rfl⟩ : ∃ f, x = f + 1 := ⟨x - 1, by omega⟩
      rw [toDigitsCore_step _ _ _ (by omega), toDigitsCore_last _ _ _ (by omega)]
      have e1 : (f + 1) / 1000 % 10 = 0 := by omega
      have e2 : (f + 1) / 100 % 10 = 0 := by omega
      have e3 : (f + 1) / 10 % 10 = (f + 1) / 10 := by omega
      simp [e1, e2, e3]
    · by_cases h3 : x < 1000
      · obtain ⟨f, rfl⟩ : ∃ f, x = f + 2 := ⟨x - 2, by omega⟩
        rw [toDigitsCore_step _ _ _ (by omega), toDigitsCore_step _ _ _ (by omega),
          toDigitsCore_last _ _ _ (by omega)]
        have e1 : (f + 2) / 1000 % 10 = 0 := by omega
        have e2 : (f + 2) / 100 % 10 = (f + 2) / 10 / 10 := by omega
        have e3 : (f + 2) / 10 / 10 % 10 = (f + 2) / 10 / 10 := by omega
        simp [e1, e2, e3]
      · obtain ⟨f, rfl⟩ : ∃ f, x = f + 3 := ⟨x - 3, by omega⟩
        rw [toDigitsCore_step _ _ _ (by omega), toDigitsCore_step _ _ _ (by omega),
          toDigitsCore_step _ _ _ (by omega), toDigitsCore_last _ _ _ (by omega)]
        have e1 : (f + 3) / 1000 % 10 = (f + 3) / 10 / 10 / 10 := by omega
        have e2 : (f + 3) / 100 % 10 = (f + 3) / 10 / 10 % 10 := by omega
        simp [e1, e2]

/-- A number below 100 padded to two places is its two decimal digits. -/
theorem appendInt_two (x : Nat) (h : x < 100) :
    appendInt x 2 = String.mk [digit (x / 10), digit x] := by
  have hd : ∀ d, digit d = Nat.digitChar (d % 10) := fun d => by
    rw [digitChar_eq_digit _ (Nat.mod_lt _ (by decide))]; simp [digit]
  have h0 : Char.ofNat 48 = Nat.digitChar 0 := by decide
  apply String.ext
  simp only [appendInt, Nat.repr, String.data_append, List.asString, Nat.toDigits, hd, h0]
  by_cases h1 : x < 10
  · rw [toDigitsCore_last _ _ _ h1]
    have e3 : x / 10 % 10 = 0 := by omega
    have e4 : x % 10 = x := by omega
    simp [e3, e4]
  · obtain ⟨f, rfl⟩ : ∃ f, x = f + 1 := ⟨x - 1, by omega⟩
    rw [toDigitsCore_step _ _ _ (by omega), toDigitsCore_last _ _ _ (by omega)]
    have e3 : (f + 1) / 10 % 10 = (f + 1) / 10 := by omega
    simp [e3]

/-- C5 (naming convention).  For every prefix, version index and clock value,
once the snapshot is taken `save` makes exactly one upload.  With an empty key
identifier the object is named
`prefix ++ decimal index ++ "-" ++ stamp ++ ".zip"`, holds the snapshot and has
content type `application/gzip`; with a key identifier and a key-service region,
once `kmsEncrypt` succeeded, it is named
`prefix ++ decimal index ++ "-" ++ stamp ++ ".enc"`, holds the encrypted bytes
and has content type `application/octet-stream`.  The stamp is the clock value
written by the layout `20060102-150405`; on every calendar time with a year of
at most four digits it is `YYYYMMDD-HHMMSS` digit by digit: the four digits of
the year, two of the month, two of the day, a hyphen, two digits of the hour,
two of the minute and two of the second. -/
theorem save_object_name (w : World) (s3Bucket s3Region s3Prefix kmsRegion kmsKeyArn : String)
    (snap : Bytes) (idx : Nat) (hsess : w.NewSession = none) (hcli : w.NewClient = none)
    (hsnap : w.SnapshotSave = .ok (snap, idx)) :
    (kmsKeyArn = "" →
      uploads (save w s3Bucket s3Region s3Prefix kmsRegion kmsKeyArn).trace =
        [.s3PutObject s3Bucket s3Region
          (s3Prefix ++ Nat.repr idx ++ "-" ++ w.now.Format ++ ".zip") snap snap.length
          "application/gzip"]) ∧
    (kmsKeyArn ≠ "" → kmsRegion ≠ "" → ∀ buf,
      (kmsEncrypt w { region := kmsRegion } kmsKeyArn snap).out = .ret (buf, none) →
      uploads (save w s3Bucket s3Region s3Prefix kmsRegion kmsKeyArn).trace =
        [.s3PutObject s3Bucket s3Region
          (s3Prefix ++ Nat.repr idx ++ "-" ++ w.now.Format ++ ".enc") buf buf.length
          "application/octet-stream"]) ∧
    (w.now.IsCalendar →
      w.now.Format = stampYYYYMMDD_HHMMSS w.now ∧
      (kmsKeyArn = "" →
        uploads (save w s3Bucket s3Region s3Prefix kmsRegion kmsKeyArn).trace =
          [.s3PutObject s3Bucket s3Region
            (s3Prefix ++ Nat.repr idx ++ "-" ++ stampYYYYMMDD_HHMMSS w.now ++ ".zip") snap
            snap.length "application/gzip"]) ∧
      (kmsKeyArn ≠ "" → kmsRegion ≠ "" → ∀ buf,
        (kmsEncrypt w { region := kmsRegion } kmsKeyArn snap).out = .ret (buf, none) →
        uploads (save w s3Bucket s3Region s3Prefix kmsRegion kmsKeyArn).trace =
          [.s3PutObject s3Bucket s3Region
            (s3Prefix ++ Nat.repr idx ++ "-" ++ stampYYYYMMDD_HHMMSS w.now ++ ".enc") buf
            buf.length "application/octet-stream"])) := by
  have hsave := save_after_snapshot w s3Bucket s3Region s3Prefix kmsRegion kmsKeyArn snap idx
    hcli hsnap
  have hA : kmsKeyArn = "" →
      uploads (save w s3Bucket s3Region s3Prefix kmsRegion kmsKeyArn).trace =
        [.s3PutObject s3Bucket s3Region
          (s3Prefix ++ Nat.repr idx ++ "-" ++ w.now.Format ++ ".zip") snap snap.length
          "application/gzip"] := by
    intro harn
    subst harn
    rw [hsave, saveBranch_plain]
    simp only [Prog.bind, s3Upload_eq w _ _ _ _ _ hsess]
    cases w.PutObject s3Region s3Bucket
        (s3Prefix ++ Nat.repr idx ++ "-" ++ w.now.Format ++ ".zip") snap snap.length
        "application/gzip" <;>
      simp [uploads, Event.isPutObject, Println, emit]
  have hB : kmsKeyArn ≠ "" → kmsRegion ≠ "" → ∀ buf,
      (kmsEncrypt w { region := kmsRegion } kmsKeyArn snap).out = .ret (buf, none) →
      uploads (save w s3Bucket s3Region s3Prefix kmsRegion kmsKeyArn).trace =
        [.s3PutObject s3Bucket s3Region
          (s3Prefix ++ Nat.repr idx ++ "-" ++ w.now.Format ++ ".enc") buf buf.length
          "application/octet-stream"] := by
    intro harn hreg buf henc
    rw [hsave, saveBranch_enc w kmsRegion kmsKeyArn _ snap harn hreg hsess]
    have hup := kmsEncrypt_uploads w { region := kmsRegion } kmsKeyArn snap
    simp only [Prog.bind, henc, s3Upload_eq w _ _ _ _ _ hsess]
    cases w.PutObject s3Region s3Bucket
        (s3Prefix ++ Nat.repr idx ++ "-" ++ w.now.Format ++ ".enc") buf buf.length
        "application/octet-stream" <;>
      simp [uploads, Event.isPutObject, Println, emit] <;>
      exact fun e he => by
        have := List.filter_eq_nil_iff.mp hup e he
        simpa using this
  refine ⟨hA, hB, fun hcal => ?_⟩
  have hF : w.now.Format = stampYYYYMMDD_HHMMSS w.now := by
    obtain ⟨hy, _, hmo, _, hd, hh, hmi, hs⟩ := hcal
    unfold Time.Format stampYYYYMMDD_HHMMSS
    rw [appendInt_four _ (by omega), appendInt_two (w.now).month (by omega),
      appendInt_two (w.now).day (by omega), appendInt_two (w.now).hour (by omega),
      appendInt_two (w.now).minute (by omega), appendInt_two (w.now).second (by omega)]
    apply String.ext
    simp only [String.data_append, List.cons_append, List.nil_append]
  refine ⟨hF, ?_, ?_⟩
  · rw [← hF]
    exact hA
  · rw [← hF]
    exact hB

/-- Witness of C5: prefix `backup-`, index 42 and the clock at 2024-01-01
12:00:00 give `backup-42-20240101-120000.zip` with `application/gzip` without a
key identifier, and `backup-42-20240101-120000.enc` with
`application/octet-stream` with one; the clock at 2023-11-04 09:05:07 gives the
stamp `20231104-090507`. -/
theorem save_object_name_witness :
    uploads (save (demoWorld []) "bucket" "eu-west-1" "backup-" "" "").trace =
      [.s3PutObject "bucket" "eu-west-1" "backup-42-20240101-120000.zip" demoSnapshot 5
        "application/gzip"] ∧
    uploads (save (demoWorld []) "bucket" "eu-west-1" "backup-" "eu-west-1" demoKeyArn).trace =
      [.s3PutObject "bucket" "eu-west-1" "backup-42-20240101-120000.enc" demoSealed 90
        "application/octet-stream"] ∧
    demoClock2.Format = "20231104-090507" ∧
    uploads (save demoWorld2 "bucket" "eu-west-1" "backup-" ""
        "").trace =
      [.s3PutObject "bucket" "eu-west-1" "backup-42-20231104-090507.zip" demoSnapshot 5
        "application/gzip"] ∧
    uploads (save demoWorld2 "bucket" "eu-west-1" "backup-"
        "eu-west-1" demoKeyArn).trace =
      [.s3PutObject "bucket" "eu-west-1" "backup-42-20231104-090507.enc" demoSealed 90
        "application/octet-stream"] :=
  ⟨((save_object_name (demoWorld []) "bucket" "eu-west-1" "backup-" "" "" demoSnapshot 42
      rfl rfl rfl).2.2 (by decide)).2.1 rfl,
    ((save_object_name (demoWorld []) "bucket" "eu-west-1" "backup-" "eu-west-1" demoKeyArn
      demoSnapshot 42 rfl rfl rfl).2.2 (by decide)).2.2 (by decide) (by decide) demoSealed
      (by decide),
    ((save_object_name demoWorld2 "bucket" "eu-west-1" "backup-"
      "" "" demoSnapshot 42 rfl rfl rfl).2.2 (by decide)).1,
    ((save_object_name demoWorld2 "bucket" "eu-west-1" "backup-"
      "" "" demoSnapshot 42 rfl rfl rfl).2.2 (by decide)).2.1 rfl,
    ((save_object_name demoWorld2 "bucket" "eu-west-1" "backup-"
      "eu-west-1" demoKeyArn demoSnapshot 42 rfl rfl rfl).2.2 (by decide)).2.2 (by decide)
      (by decide) demoSealed (by decide)⟩

/-! ## Save followed by restore -/

/-- A name ending in `.zip` does not end in `.enc`. -/
theorem HasSuffix_zip (stem : String) : HasSuffix (stem ++ ".zip") ".enc" = false := by
  cases h : HasSuffix (stem ++ ".zip") ".enc"
  · rfl
  · obtain ⟨stem2, h2⟩ := (HasSuffix_enc_iff _).mp h
    have h3 := congrArg String.data h2
    rw [String.data_append, String.data_append] at h3
    have h4 := (List.append_inj' h3 rfl).2
    exact absurd h4 (by decide)

/-- A name ending in `.enc` is recognised by `HasSuffix`. -/
theorem HasSuffix_enc (stem : String) : HasSuffix (stem ++ ".enc") ".enc" = true :=
  (HasSuffix_enc_iff _).mpr ⟨stem, rfl⟩

/-- Every run of `kmsDecrypt` makes no call to the store of snapshots. -/
theorem kmsDecrypt_trace_consul (w : World) (c : KMS) (b : Bytes) :
    ∀ e ∈ (kmsDecrypt w c b).trace, e.isConsul = false := by
  rw [kmsDecrypt_eq]
  cases w.Decrypt c.region (w.gobDecode b payload.zero).1.Key <;>
    simp [Event.isConsul]

/-- Every run of `kmsEncrypt` starts with the call of the key service. -/
theorem kmsEncrypt_trace_head (w : World) (c : KMS) (K : String) (P : Bytes) :
    Event.kmsGenerateDataKey c.region K "AES_128" ∈ (kmsEncrypt w c K P).trace := by
  rw [kmsEncrypt_eq]
  cases w.GenerateDataKey c.region K "AES_128" with
  | error err => simp
  | ok r =>
    obtain ⟨pk, wk⟩ := r
    cases w.randRead with
    | error err => simp
    | ok nonce =>
      cases hs : w.Seal [] P (some nonce) (newKey pk) <;> simp [hs]

/-- The run of `save` without a key identifier. -/
theorem save_plain_eq (w : World) (s3Bucket s3Region s3Prefix kmsRegion : String)
    (snap : Bytes) (idx : Nat) (hsess : w.NewSession = none) (hcli : w.NewClient = none)
    (hsnap : w.SnapshotSave = .ok (snap, idx)) :
    save w s3Bucket s3Region s3Prefix kmsRegion "" =
      match w.PutObject s3Region s3Bucket
          (s3Prefix ++ Nat.repr idx ++ "-" ++ w.now.Format ++ ".zip") snap snap.length
          "application/gzip" with
      | some err =>
        ⟨[.consulNewClient, .consulSnapshotSave, .stdout "KMS not enabled\n", .newSession,
          .s3PutObject s3Bucket s3Region
            (s3Prefix ++ Nat.repr idx ++ "-" ++ w.now.Format ++ ".zip") snap snap.length
            "application/gzip",
          .stderr (Sprintln ["Failed to upload to s3", err])], .exited 1⟩
      | none =>
        ⟨[.consulNewClient, .consulSnapshotSave, .stdout "KMS not enabled\n", .newSession,
          .s3PutObject s3Bucket s3Region
            (s3Prefix ++ Nat.repr idx ++ "-" ++ w.now.Format ++ ".zip") snap snap.length
            "application/gzip",
          .stdout (Sprintln ["Uploaded to " ++ s3Bucket ++ "/" ++
            (s3Prefix ++ Nat.repr idx ++ "-" ++ w.now.Format ++ ".zip")])], .ret ()⟩ := by
  rw [save_after_snapshot w s3Bucket s3Region s3Prefix kmsRegion "" snap idx hcli hsnap,
    saveBranch_plain]
  simp only [Prog.bind, s3Upload_eq w _ _ _ _ _ hsess]
  cases w.PutObject s3Region s3Bucket
      (s3Prefix ++ Nat.repr idx ++ "-" ++ w.now.Format ++ ".zip") snap snap.length
      "application/gzip" <;> simp [Println, emit]

/-- The run of `save` with a key identifier and a region, once `kmsEncrypt`
succeeded. -/
theorem save_enc_eq (w : World) (s3Bucket s3Region s3Prefix kmsRegion kmsKeyArn : String)
    (snap buf : Bytes) (idx : Nat) (hsess : w.NewSession = none) (hcli : w.NewClient = none)
    (hsnap : w.SnapshotSave = .ok (snap, idx)) (harn : kmsKeyArn ≠ "") (hreg : kmsRegion ≠ "")
    (henc : (kmsEncrypt w { region := kmsRegion } kmsKeyArn snap).out = .ret (buf, none)) :
    save w s3Bucket s3Region s3Prefix kmsRegion kmsKeyArn =
      match w.PutObject s3Region s3Bucket
          (s3Prefix ++ Nat.repr idx ++ "-" ++ w.now.Format ++ ".enc") buf buf.length
          "application/octet-stream" with
      | some err =>
        ⟨[.consulNewClient, .consulSnapshotSave, .newSession] ++
          (kmsEncrypt w { region := kmsRegion } kmsKeyArn snap).trace ++
          [.stdout (Sprintln ["KMS enabled, using", kmsKeyArn]), .newSession,
          .s3PutObject s3Bucket s3Region
            (s3Prefix ++ Nat.repr idx ++ "-" ++ w.now.Format ++ ".enc") buf buf.length
            "application/octet-stream",
          .stderr (Sprintln ["Failed to upload to s3", err])], .exited 1⟩
      | none =>
        ⟨[.consulNewClient, .consulSnapshotSave, .newSession] ++
          (kmsEncrypt w { region := kmsRegion } kmsKeyArn snap).trace ++
          [.stdout (Sprintln ["KMS enabled, using", kmsKeyArn]), .newSession,
          .s3PutObject s3Bucket s3Region
            (s3Prefix ++ Nat.repr idx ++ "-" ++ w.now.Format ++ ".enc") buf buf.length
            "application/octet-stream",
          .stdout (Sprintln ["Uploaded to " ++ s3Bucket ++ "/" ++
            (s3Prefix ++ Nat.repr idx ++ "-" ++ w.now.Format ++ ".enc")])], .ret ()⟩ := by
  rw [save_after_snapshot w s3Bucket s3Region s3Prefix kmsRegion kmsKeyArn snap idx hcli hsnap,
    saveBranch_enc w kmsRegion kmsKeyArn _ snap harn hreg hsess]
  simp only [Prog.bind, henc, s3Upload_eq w _ _ _ _ _ hsess]
  cases w.PutObject s3Region s3Bucket
      (s3Prefix ++ Nat.repr idx ++ "-" ++ w.now.Format ++ ".enc") buf buf.length
      "application/octet-stream" <;> simp [Println, emit]

/-- The events of `restore` on a path with the suffix, with a region, after a
successful download and a successful `kmsDecrypt`. -/
theorem restore_enc_trace (w : World) (s3Bucket s3Region s3Path kmsRegion name : String)
    (content pt : Bytes) (hsess : w.NewSession = none) (htemp : w.TempFile = .ok name)
    (hdl : w.Download s3Region s3Bucket s3Path = .ok content)
    (hs : HasSuffix s3Path ".enc" = true) (hreg : kmsRegion ≠ "")
    (hdec : (kmsDecrypt w { region := kmsRegion } content).out = .ret (pt, none)) (e : Event) :
    e ∈ (restore w s3Bucket s3Region s3Path kmsRegion).trace ↔
      e ∈ [Event.newSession, .tempFile name, .s3Download s3Bucket s3Region s3Path,
        .removeFile name, .newSession] ∨
      e ∈ (kmsDecrypt w { region := kmsRegion } content).trace ∨
      e ∈ (restoreConsulSnapshot w pt).trace ∨
      ((∃ x, (restoreConsulSnapshot w pt).out = .ret x) ∧
        e = .stdout (Sprintln ["Restored from", s3Path])) := by
  have hb : restoreBranch w s3Path kmsRegion content =
      ⟨.newSession :: (kmsDecrypt w { region := kmsRegion } content).trace, .ret pt⟩ := by
    rw [restoreBranch_enc w s3Path kmsRegion content hs hreg hsess]
    simp [Prog.bind, hdec]
  rw [restore_after_download w s3Bucket s3Region s3Path kmsRegion name content hsess htemp hdl,
    hb]
  simp [mem_bind_trace, Println, emit]
  tauto

/-- The bucket of the concrete world holds what the encrypting `save` uploads. -/
theorem demo_store (key : String) (content : Bytes) (n : Nat) (ct : String)
    (h : Event.s3PutObject "bucket" "eu-west-1" key content n ct ∈
      (save (demoWorld demoBucket) "bucket" "eu-west-1" "backup-" "eu-west-1" demoKeyArn).trace) :
    (demoWorld demoBucket).Download "eu-west-1" "bucket" key = .ok content := by
  have ht : (save (demoWorld demoBucket) "bucket" "eu-west-1" "backup-" "eu-west-1"
      demoKeyArn).trace =
      [.consulNewClient, .consulSnapshotSave, .newSession,
        .kmsGenerateDataKey "eu-west-1" demoKeyArn "AES_128", .randRead 24,
        .secretboxSeal [] demoSnapshot (some demoNonce) (newKey demoDataKey),
        .stdout "KMS enabled, using arn:aws:kms:eu-west-1:111122223333:key/demo\n",
        .newSession,
        .s3PutObject "bucket" "eu-west-1" "backup-42-20240101-120000.enc" demoSealed 90
          "application/octet-stream",
        .stdout "Uploaded to bucket/backup-42-20240101-120000.enc\n"] := by
    decide
  rw [ht] at h
  simp only [List.mem_cons, List.mem_singleton, List.not_mem_nil, or_false, Event.s3PutObject.injEq,
    false_or, reduceCtorEq] at h
  obtain ⟨_, _, hk, hc, _, _⟩ := h
  subst hk hc
  rfl

/-- C10 (save / restore agreement).  Let `save` have succeeded on the snapshot
`S`, with an empty key identifier or with a key identifier and a key-service
region, in a world whose blob store returns what was put under a name and whose
key service, codec and cipher are consistent.  Then `save` made exactly one
upload, and `restore` on the name of that upload, with the same key-service
region, hands the store exactly `S`; it calls the key service exactly when
`save` did, that is exactly when the key identifier is not empty. -/
theorem restore_after_save (w : World)
    (s3Bucket s3Region s3Prefix kmsRegion kmsKeyArn name : String) (S : Bytes) (idx : Nat)
    (hmode : kmsKeyArn = "" ∨ kmsRegion ≠ "")
    (hkms : KeyServiceConsistent w) (hgob : GobRoundTrip w) (hbox : BoxRoundTrip w)
    (hsnap : w.SnapshotSave = .ok (S, idx))
    (hsave : (save w s3Bucket s3Region s3Prefix kmsRegion kmsKeyArn).out = .ret ())
    (htemp : w.TempFile = .ok name)
    (hstore : ∀ key content n ct,
      Event.s3PutObject s3Bucket s3Region key content n ct ∈
        (save w s3Bucket s3Region s3Prefix kmsRegion kmsKeyArn).trace →
      w.Download s3Region s3Bucket key = .ok content) :
    ∃ key content ct,
      uploads (save w s3Bucket s3Region s3Prefix kmsRegion kmsKeyArn).trace =
        [.s3PutObject s3Bucket s3Region key content content.length ct] ∧
      Event.consulSnapshotRestore S ∈ (restore w s3Bucket s3Region key kmsRegion).trace ∧
      (∀ c, Event.consulSnapshotRestore c ∈ (restore w s3Bucket s3Region key kmsRegion).trace →
        c = S) ∧
      ((∃ e ∈ (restore w s3Bucket s3Region key kmsRegion).trace, e.isKeyService = true) ↔
        (∃ e ∈ (save w s3Bucket s3Region s3Prefix kmsRegion kmsKeyArn).trace,
          e.isKeyService = true)) ∧
      ((∃ e ∈ (save w s3Bucket s3Region s3Prefix kmsRegion kmsKeyArn).trace,
          e.isKeyService = true) ↔ kmsKeyArn ≠ "") := by
  have hcli : w.NewClient = none := by
    cases hc : w.NewClient with
    | none => rfl
    | some err =>
      simp [save, getConsulSnapshot, hc, bind, Prog.bind, emit, osExit, FprintlnStderr] at hsave
  have hshape := save_after_snapshot w s3Bucket s3Region s3Prefix kmsRegion kmsKeyArn S idx
    hcli hsnap
  have hsess : w.NewSession = none := by
    cases hs : w.NewSession with
    | none => rfl
    | some err =>
      exfalso
      rw [hshape] at hsave
      by_cases harn : kmsKeyArn = ""
      · subst harn
        rw [saveBranch_plain] at hsave
        simp [Prog.bind, s3Upload, mustNewSession, hs, bind, emit, goPanic] at hsave
      · have hreg := hmode.resolve_left harn
        simp [saveBranch, harn, hreg, newKmsClient, mustNewSession, hs, bind, Prog.bind, emit,
          goPanic] at hsave
  by_cases harn : kmsKeyArn = ""
  · subst harn
    have heq := save_plain_eq w s3Bucket s3Region s3Prefix kmsRegion S idx hsess hcli hsnap
    cases hput : w.PutObject s3Region s3Bucket
        (s3Prefix ++ Nat.repr idx ++ "-" ++ w.now.Format ++ ".zip") S S.length
        "application/gzip" with
    | some err =>
      rw [heq, hput] at hsave
      cases hsave
    | none =>
      simp only [hput] at heq
      have hdl := hstore (s3Prefix ++ Nat.repr idx ++ "-" ++ w.now.Format ++ ".zip") S S.length
        "application/gzip" (by rw [heq]; simp)
      have hmem := restore_plain_trace w s3Bucket s3Region
        (s3Prefix ++ Nat.repr idx ++ "-" ++ w.now.Format ++ ".zip") kmsRegion name S
        hsess htemp hdl (HasSuffix_zip _)
      have hcons := restoreConsulSnapshot_trace w S
      have hnoR : ¬ ∃ e ∈ (restore w s3Bucket s3Region
          (s3Prefix ++ Nat.repr idx ++ "-" ++ w.now.Format ++ ".zip") kmsRegion).trace,
          e.isKeyService = true := by
        rintro ⟨e, he, hk⟩
        rcases (hmem e).mp he with he | he | ⟨_, he⟩
        · simp only [List.mem_cons, List.mem_singleton, List.not_mem_nil, or_false] at he
          rcases he with he | he | he | he <;> subst he <;> cases hk
        · rw [(hcons.1 e he).1] at hk
          cases hk
        · subst he
          cases hk
      have hnoS : ¬ ∃ e ∈ (save w s3Bucket s3Region s3Prefix kmsRegion "").trace,
          e.isKeyService = true := by
        rintro ⟨e, he, hk⟩
        rw [heq] at he
        simp only [List.mem_cons, List.mem_singleton, List.not_mem_nil, or_false] at he
        rcases he with he | he | he | he | he | he <;> subst he <;> cases hk
      refine ⟨s3Prefix ++ Nat.repr idx ++ "-" ++ w.now.Format ++ ".zip", S,
        "application/gzip", ?_, ?_, ?_, ?_, ?_⟩
      · rw [heq]
        simp [uploads, Event.isPutObject]
      · exact (hmem _).mpr (Or.inr (Or.inl (hcons.2.2 hcli)))
      · intro c he
        rcases (hmem _).mp he with he | he | ⟨_, he⟩
        · simp at he
        · exact hcons.2.1 c he
        · cases he
      · exact ⟨fun h => absurd h hnoR, fun h => absurd h hnoS⟩
      · exact ⟨fun h => absurd h hnoS, fun h => absurd rfl h⟩
  · have hreg := hmode.resolve_left harn
    -- `kmsEncrypt` succeeded
    have henc : ∃ buf, (kmsEncrypt w { region := kmsRegion } kmsKeyArn S).out =
        .ret (buf, none) := by
      rw [hshape, saveBranch_enc w kmsRegion kmsKeyArn _ S harn hreg hsess] at hsave
      cases hk : (kmsEncrypt w { region := kmsRegion } kmsKeyArn S).out with
      | ret r =>
        obtain ⟨buf, err⟩ := r
        cases err with
        | none => exact ⟨buf, rfl⟩
        | some err => simp [Prog.bind, hk] at hsave
      | exited code => simp [Prog.bind, hk] at hsave
      | panicked msg => simp [Prog.bind, hk] at hsave
    obtain ⟨buf, henc⟩ := henc
    have heq := save_enc_eq w s3Bucket s3Region s3Prefix kmsRegion kmsKeyArn S buf idx hsess
      hcli hsnap harn hreg henc
    cases hput : w.PutObject s3Region s3Bucket
        (s3Prefix ++ Nat.repr idx ++ "-" ++ w.now.Format ++ ".enc") buf buf.length
        "application/octet-stream" with
    | some err =>
      rw [heq, hput] at hsave
      cases hsave
    | none =>
      simp only [hput] at heq
      have hdl := hstore (s3Prefix ++ Nat.repr idx ++ "-" ++ w.now.Format ++ ".enc") buf
        buf.length "application/octet-stream" (by rw [heq]; simp)
      have hdec := kmsDecrypt_after_kmsEncrypt w { region := kmsRegion } kmsKeyArn S buf
        hkms hgob hbox henc
      have hmem := restore_enc_trace w s3Bucket s3Region
        (s3Prefix ++ Nat.repr idx ++ "-" ++ w.now.Format ++ ".enc") kmsRegion name buf S
        hsess htemp hdl (HasSuffix_enc _) hreg hdec
      have hcons := restoreConsulSnapshot_trace w S
      have hyesS : ∃ e ∈ (save w s3Bucket s3Region s3Prefix kmsRegion kmsKeyArn).trace,
          e.isKeyService = true := by
        refine ⟨Event.kmsGenerateDataKey kmsRegion kmsKeyArn "AES_128", ?_, rfl⟩
        rw [heq]
        have := kmsEncrypt_trace_head w { region := kmsRegion } kmsKeyArn S
        simp only [List.mem_append]
        exact Or.inl (Or.inr this)
      have hyesR : ∃ e ∈ (restore w s3Bucket s3Region
          (s3Prefix ++ Nat.repr idx ++ "-" ++ w.now.Format ++ ".enc") kmsRegion).trace,
          e.isKeyService = true :=
        ⟨Event.kmsDecrypt kmsRegion (w.gobDecode buf payload.zero).1.Key,
          (hmem _).mpr (Or.inr (Or.inl (kmsDecrypt_trace_head w { region := kmsRegion } buf))),
          rfl⟩
      refine ⟨s3Prefix ++ Nat.repr idx ++ "-" ++ w.now.Format ++ ".enc", buf,
        "application/octet-stream", ?_, ?_, ?_, ?_, ?_⟩
      · rw [heq]
        have hup := kmsEncrypt_uploads w { region := kmsRegion } kmsKeyArn S
        simp only [uploads, List.filter_append] at hup ⊢
        rw [hup]
        simp [Event.isPutObject]
      · exact (hmem _).mpr (Or.inr (Or.inr (Or.inl (hcons.2.2 hcli))))
      · intro c he
        rcases (hmem _).mp he with he | he | he | ⟨_, he⟩
        · simp at he
        · have := kmsDecrypt_trace_consul w { region := kmsRegion } buf _ he
          cases this
        · exact hcons.2.1 c he
        · cases he
      · exact ⟨fun _ => hyesS, fun _ => hyesR⟩
      · exact ⟨fun _ => harn, fun _ => hyesS⟩

/-- Witness of C10 in the concrete world: an encrypting `save` followed by
`restore` of the object it uploaded. -/
theorem restore_after_save_witness :
    ∃ key content ct,
      uploads (save (demoWorld demoBucket) "bucket" "eu-west-1" "backup-" "eu-west-1"
          demoKeyArn).trace =
        [.s3PutObject "bucket" "eu-west-1" key content content.length ct] ∧
      Event.consulSnapshotRestore demoSnapshot ∈
        (restore (demoWorld demoBucket) "bucket" "eu-west-1" key "eu-west-1").trace ∧
      (∀ c, Event.consulSnapshotRestore c ∈
        (restore (demoWorld demoBucket) "bucket" "eu-west-1" key "eu-west-1").trace →
          c = demoSnapshot) ∧
      ((∃ e ∈ (restore (demoWorld demoBucket) "bucket" "eu-west-1" key "eu-west-1").trace,
          e.isKeyService = true) ↔
        (∃ e ∈ (save (demoWorld demoBucket) "bucket" "eu-west-1" "backup-" "eu-west-1"
            demoKeyArn).trace, e.isKeyService = true)) ∧
      ((∃ e ∈ (save (demoWorld demoBucket) "bucket" "eu-west-1" "backup-" "eu-west-1"
            demoKeyArn).trace, e.isKeyService = true) ↔ demoKeyArn ≠ "") :=
  restore_after_save (demoWorld demoBucket) "bucket" "eu-west-1" "backup-" "eu-west-1"
    demoKeyArn "snap-restore012345678" demoSnapshot 42 (Or.inr (by decide))
    (demo_keyService demoBucket) (demo_gob demoBucket) (demo_box demoBucket) rfl (by decide) rfl
    demo_store

end ConsulS3Snapshot
